import Mathlib

/-!
Verification development for the Zentify-Cleaner cleaning engine
(`src/cleaning/temp_files.rs`).

The Rust source is shallowly embedded as executable Lean definitions:

* strings are `String` / `List Char`; machine integers (`u64`, `usize`) are
  `Nat` (the quantities involved are counters and byte sizes, and the source
  never relies on wraparound);
* `SystemTime` is modelled as a `Nat` number of seconds; the single clock
  reading `SystemTime::now()` is passed explicitly as a parameter `now`
  (the source queries the clock per file, modelled here as one constant
  clock during a run);
* the filesystem is an inductive tree `FSNode`.  Fallible OS calls are
  modelled by explicit outcome fields on the nodes: `metaErr` (a
  `fs::metadata` failure), `removeErr` (a `fs::remove_file` failure and its
  `io::Error`), `readOk` (whether `fs::read_dir` succeeds) and `rmdirErr`
  (a `fs::remove_dir` failure message).  A directory-entry iteration error
  (an `Err` yielded while iterating `read_dir`) is an entry that is `none`.
  Symbolic links to directories are `symlinkDir` nodes: `is_file` is
  `false`, `is_dir` is `true` (Rust `Path::is_dir` follows links) and
  `symlink_metadata ... is_symlink` is `true`; their `target` field holds
  the directory contents reachable through the link.  `fs::remove_dir` on a
  directory symlink is given the Windows semantics (it deletes the link),
  matching the Windows-only target of this crate;
* `f64` arithmetic in `format_bytes` is modelled exactly: the only
  operations are a cast from an integer, divisions by 1024 and comparisons
  with 1024.0 and 10.0, all of which are exact in binary floating point for
  byte counts below 2^53, so the value of `size` is the rational
  `bytes / 1024 ^ unit_idx` and `{:.N}` rendering is rounding that rational
  to N decimals, ties to even;
* error message strings produced with `format!` interpolation of an
  `io::Error` are abstracted to fixed message constants (the classification
  logic never inspects message text);
* `HashMap<String, _>` iteration order is modelled by list order, and
  `HashMap::insert` by an overwrite-on-insert association list;
  `processing_time` (wall-clock measurement) is not modelled.
-/

namespace Zentify

/-! ## ASCII case-insensitive string helpers (`eq_ignore_ascii_case`, `to_lowercase`) -/

/-- ASCII lowercasing of one character (`char::to_ascii_lowercase`; the Rust
`str::to_lowercase` call agrees with it on ASCII input, the only difference
is on non-ASCII codepoints, which the matcher handles identically on both
sides). -/
def asciiLower (c : Char) : Char :=
  if 'A' ≤ c ∧ c ≤ 'Z' then Char.ofNat (c.toNat + 32) else c

/-- Rust `str::eq_ignore_ascii_case` on character lists. -/
def eqIgnoreAsciiCaseL : List Char → List Char → Bool
  | [], [] => true
  | a :: as, b :: bs => (asciiLower a == asciiLower b) && eqIgnoreAsciiCaseL as bs
  | _, _ => false

/-- Rust `str::eq_ignore_ascii_case`. -/
def eq_ignore_ascii_case (a b : String) : Bool :=
  eqIgnoreAsciiCaseL a.data b.data

/-- Rust `str::split('*').collect::<Vec<_>>()`: split on every `'*'`,
keeping empty segments. -/
def splitStar : List Char → List (List Char)
  | [] => [[]]
  | c :: cs =>
    if c = '*' then [] :: splitStar cs
    else
      match splitStar cs with
      | [] => [[c]]
      | p :: ps => (c :: p) :: ps

/-! ## `matches_pattern` (temp_files.rs lines 430-477)

The three mutually recursive functions below are the three layers of the
source function: the dispatch on the number of `'*'`-separated parts, the
character-by-character walk of the "complex" branch (the `while let` loop at
lines 447-469), and the inner backtracking loop at lines 453-460 that
advances the filename iterator one position at a time and re-enters
`matches_pattern` on the remainders. -/

mutual

/-- `matches_pattern` (lines 430-477) over character lists. -/
def matchesPatternCore (filename pattern : List Char) : Bool :=
  if pattern.contains '*' then
    let parts := splitStar pattern
    if parts.length = 1 then eqIgnoreAsciiCaseL filename pattern
    else if parts.length = 2 then
      ((parts.headD []).map asciiLower).isPrefixOf (filename.map asciiLower) &&
      ((parts.getD 1 []).map asciiLower).isSuffixOf (filename.map asciiLower)
    else matchLoop (pattern.map asciiLower) (filename.map asciiLower)
  else eqIgnoreAsciiCaseL filename pattern
termination_by (pattern.length, 2, filename.length)

/-- The `while let Some(p_char) = pattern_chars.next()` loop (lines 447-469)
plus the final `filename_chars.peek().is_none()` check (line 471).  Both
lists are already lowercased. -/
def matchLoop (pat fn : List Char) : Bool :=
  match pat with
  | [] => fn.isEmpty
  | p :: ps =>
    if p = '*' then
      if ps.isEmpty then true
      else tryPositions fn ps
    else
      match fn with
      | [] => false
      | f :: fs => if p = f then matchLoop ps fs else false
termination_by (pat.length, 1, fn.length)

/-- The `while filename_chars.peek().is_some()` backtracking loop (lines
453-460): try `matches_pattern` on the current filename remainder against
the pattern remainder after the `'*'`, else drop one filename character;
`return false` once the filename iterator is exhausted (line 461). -/
def tryPositions (fn ps : List Char) : Bool :=
  match fn with
  | [] => false
  | _ :: fs => matchesPatternCore fn ps || tryPositions fs ps
termination_by (ps.length + 1, 0, fn.length)

end

/-- `matches_pattern(filename, pattern)` on `String`s. -/
def matches_pattern (filename pattern : String) : Bool :=
  matchesPatternCore filename.data pattern.data

/-- Modelled from the spec, not the source: general wildcard matching in
which each `'*'` matches zero or more characters and every split point is
tried.  This is the reference point for the refinement statement of C2;
the case-insensitivity of the source matcher is mirrored by the
lowercasing wrapper `glob_matches` below. -/
def globMatchL : List Char → List Char → Bool
  | [], fn => fn.isEmpty
  | p :: ps, fn =>
    if p = '*' then
      globMatchL ps fn ||
        (match fn with
          | [] => false
          | _ :: fs => globMatchL (p :: ps) fs)
    else
      match fn with
      | [] => false
      | f :: fs => (p == f) && globMatchL ps fs
termination_by pat fn => (pat.length, fn.length)

/-- Modelled from the spec: case-insensitive general wildcard matching on
`String`s. -/
def glob_matches (filename pattern : String) : Bool :=
  globMatchL (pattern.data.map asciiLower) (filename.data.map asciiLower)

/-- The pattern class on which the source matcher is proved (C2) to agree
exactly with general wildcard matching: the pattern ends in `'*'` and no
two `'*'` are adjacent. -/
def okPattern : List Char → Bool
  | [] => false
  | [c] => c == '*'
  | c1 :: c2 :: rest => !(c1 == '*' && c2 == '*') && okPattern (c2 :: rest)

/-! ## `format_bytes` (temp_files.rs lines 779-794) -/

/-- The unit table `UNITS` (line 780). -/
def UNITS : List String := ["Bytes", "KB", "MB", "GB", "TB"]

/-- The `while size >= 1024.0 && unit_idx < UNITS.len() - 1` loop (lines
784-787), tracking only the unit index; at index `k` the f64 value `size`
is exactly the rational `bytes / 1024 ^ k`, and that rational is `≥ 1024`
iff the natural-division value here is `≥ 1024`. -/
def unitIdxGo (b k : Nat) : Nat :=
  if 1024 ≤ b ∧ k < 4 then unitIdxGo (b / 1024) (k + 1) else k
termination_by 4 - k

/-- Unit index chosen by the scaling loop. -/
def unit_idx (bytes : Nat) : Nat := unitIdxGo bytes 0

/-- Round `num / den` to the nearest integer, ties to even: the rounding Rust
applies to the exact binary value when formatting with `{:.N}`. -/
def roundHalfEvenDiv (num den : Nat) : Nat :=
  let q := num / den
  let r := num % den
  if 2 * r < den then q
  else if den < 2 * r then q + 1
  else if q % 2 = 0 then q else q + 1

/-- Zero-pad the fractional part to exactly `d` digits. -/
def padZeros (d rem : Nat) : String :=
  let s := Nat.repr rem
  String.mk (List.replicate (d - s.length) '0') ++ s

/-- Render the exact rational `num / den` with `d` decimal digits
(`format!("{:.1}", size)` / `format!("{:.2}", size)` on the exact value). -/
def render_decimal (num den d : Nat) : String :=
  let n := roundHalfEvenDiv (num * 10 ^ d) den
  Nat.repr (n / 10 ^ d) ++ "." ++ padZeros d (n % 10 ^ d)

/-- `format_bytes` (lines 779-794): scale by 1024 per unit step; two decimal
digits when `size < 10.0 && unit_idx > 0`, one otherwise. -/
def format_bytes (bytes : Nat) : String :=
  let k := unit_idx bytes
  let d := if bytes < 10 * 1024 ^ k ∧ 0 < k then 2 else 1
  render_decimal bytes (1024 ^ k) d ++ " " ++ UNITS.getD k ""

/-! ## `io::Error` and the error classifier (temp_files.rs lines 9-10, 763-776) -/

/-- The `io::ErrorKind` values the source distinguishes. -/
inductive IoErrorKind where
  | permissionDenied
  | other
deriving DecidableEq

/-- An `io::Error`: the raw OS error code (`raw_os_error()`), the portable
kind (`kind()`) and the display message (`to_string()`). -/
structure IoErr where
  raw_os : Option Nat
  kind : IoErrorKind
  msg : String
deriving DecidableEq

/-- `windows::Win32::Foundation::ERROR_SHARING_VIOLATION` (32). -/
def ERROR_SHARING_VIOLATION : Nat := 32

/-- `windows::Win32::Foundation::ERROR_LOCK_VIOLATION` (33). -/
def ERROR_LOCK_VIOLATION : Nat := 33

/-- `is_file_in_use_error` (lines 764-771, the `cfg(windows)` version; the
fallback arm `_ => error.kind() == io::ErrorKind::PermissionDenied` is the
whole body of the non-Windows version at lines 773-776). -/
def is_file_in_use_error (e : IoErr) : Bool :=
  match e.raw_os with
  | some err =>
    if err = ERROR_SHARING_VIOLATION then true
    else if err = ERROR_LOCK_VIOLATION then true
    else e.kind = .permissionDenied
  | none => e.kind = .permissionDenied

/-- `CleaningError` (lines 13-20).  Paths are modelled by the node name. -/
inductive CleaningError where
  | DirectoryNotFound (path : String)
  | PermissionDenied (path : String)
  | FileInUse (path : String)
  | IoError (path : String) (msg : String)
  | InvalidPath (msg : String)
deriving DecidableEq, Repr

/-- The error classification applied to a failed `fs::remove_file` in
`process_file` (lines 381-391). -/
def classify_remove_error (path : String) (e : IoErr) : CleaningError :=
  if is_file_in_use_error e then .FileInUse path
  else if e.kind = .permissionDenied then .PermissionDenied path
  else .IoError path e.msg

/-! ## Summary and options (temp_files.rs lines 53-164) -/

/-- `LocationSummary` (lines 66-73). -/
structure LocationSummary where
  location_name : String
  deleted_files : Nat
  total_size : Nat
  errors : Nat
  skipped_files : Nat
deriving DecidableEq, Repr

/-- `CleaningSummary` (lines 54-63); `cleaned_locations` is the `HashMap`
as an overwrite-on-insert association list, `processing_time` is not
modelled. -/
structure CleaningSummary where
  deleted_files : Nat
  total_size : Nat
  errors : List CleaningError
  skipped_files : Nat
  cleaned_locations : List (String × LocationSummary)
  empty_dirs_removed : Nat
deriving DecidableEq, Repr

/-- `CleaningSummary::new` (lines 77-87). -/
def CleaningSummary.new : CleaningSummary :=
  { deleted_files := 0, total_size := 0, errors := [], skipped_files := 0
    cleaned_locations := [], empty_dirs_removed := 0 }

/-- `CleaningSummary::add_error` (lines 104-106). -/
def CleaningSummary.add_error (s : CleaningSummary) (e : CleaningError) : CleaningSummary :=
  { s with errors := s.errors ++ [e] }

/-- `HashMap::insert`: overwrite the entry with the same key, else append. -/
def insertLocation (m : List (String × LocationSummary)) (key : String)
    (v : LocationSummary) : List (String × LocationSummary) :=
  match m with
  | [] => [(key, v)]
  | (k, w) :: rest =>
    if k = key then (key, v) :: rest else (k, w) :: insertLocation rest key v

/-- `CleaningSummary::add_location_data` (lines 90-101). -/
def CleaningSummary.add_location_data (s : CleaningSummary) (location_name : String)
    (files : Nat) (size : Nat) (errors : Nat) (skipped : Nat) : CleaningSummary :=
  let v : LocationSummary :=
    { location_name := location_name, deleted_files := files,
      total_size := size, errors := errors, skipped_files := skipped }
  { s with cleaned_locations := insertLocation s.cleaned_locations location_name v }

/-- `CleaningOptions` (lines 125-147). -/
structure CleaningOptions where
  min_file_age_days : Nat
  recursive : Bool
  remove_empty_dirs : Bool
  target_extensions : Option (List String)
  max_files : Nat
  max_file_size : Nat
  min_file_size : Nat
  excluded_patterns : List String
  verbose : Bool
  dry_run : Bool
deriving DecidableEq

/-- `CleaningOptions::default` (lines 149-164). -/
def CleaningOptions.default : CleaningOptions :=
  { min_file_age_days := 1, recursive := true, remove_empty_dirs := true
    target_extensions := none, max_files := 0, max_file_size := 0
    min_file_size := 0, excluded_patterns := [], verbose := false
    dry_run := false }

/-! ## Filesystem model -/

/-- A filesystem node (see the header comment for the modelling of the
fallible OS calls).  An entry of a directory that is `none` models an `Err`
yielded while iterating `read_dir` (line 267 / line 491). -/
inductive FSNode where
  | file (name : String) (size : Nat) (modified : Nat)
      (metaErr : Bool) (removeErr : Option IoErr)
  | dir (name : String) (entries : List (Option FSNode))
      (readOk : Bool) (rmdirErr : Option String)
  | symlinkDir (name : String) (target : List (Option FSNode))
      (readOk : Bool) (rmdirErr : Option String)

/-- The path (final component) of a node. -/
def nodeName : FSNode → String
  | .file n _ _ _ _ => n
  | .dir n _ _ _ => n
  | .symlinkDir n _ _ _ => n

/-- Rust `Path::is_file` (follows symlinks; we model only directory links). -/
def isFileNode : FSNode → Bool
  | .file _ _ _ _ _ => true
  | _ => false

/-- Rust `Path::is_dir` (follows symlinks, so a symlink to a directory is a
directory). -/
def isDirNode : FSNode → Bool
  | .dir _ _ _ _ => true
  | .symlinkDir _ _ _ _ => true
  | _ => false

/-- `fs::symlink_metadata(..).map(|m| m.file_type().is_symlink()).unwrap_or(false)`
(lines 286-288). -/
def isSymlinkNode : FSNode → Bool
  | .symlinkDir _ _ _ _ => true
  | _ => false

/-- The `fs::remove_dir` outcome field of a node (`none` for files: the call
never succeeds on a file, but the source only reaches it behind
`is_directory_empty`, which is `false` on files). -/
def rmdirErrOf : FSNode → Option String
  | .file _ _ _ _ _ => none
  | .dir _ _ _ rm => rm
  | .symlinkDir _ _ _ rm => rm

/-- `is_directory_empty` (lines 747-749): `fs::read_dir(dir)?.next().is_none()`,
with a read failure collapsing to `false` at the only call site via
`unwrap_or(false)` (line 499).  Reading a file fails, reading through a
symlink follows it. -/
def is_directory_empty : FSNode → Bool
  | .file _ _ _ _ _ => false
  | .dir _ es ro _ => ro && es.isEmpty
  | .symlinkDir _ es ro _ => ro && es.isEmpty

mutual

/-- Structural weight of a node, used as the termination measure of the
traversal. -/
def nodeWeight : FSNode → Nat
  | .file _ _ _ _ _ => 1
  | .dir _ es _ _ => 1 + entWeightList es
  | .symlinkDir _ es _ _ => 1 + entWeightList es

/-- Structural weight of an entry list. -/
def entWeightList : List (Option FSNode) → Nat
  | [] => 0
  | none :: r => 1 + entWeightList r
  | some n :: r => 1 + nodeWeight n + entWeightList r

end

/-! ## Filter policy (temp_files.rs lines 396-427, 752-761) -/

/-- Split a character list at the last `'.'`: `some (before, after)` when a
dot exists. -/
def lastDotSplit : List Char → Option (List Char × List Char)
  | [] => none
  | c :: cs =>
    match lastDotSplit cs with
    | some (b, a) => some (c :: b, a)
    | none => if c = '.' then some ([], cs) else none

/-- Rust `Path::extension` on a file name: the portion after the last `'.'`,
and `none` when there is no dot or the only dot is the leading one of a
hidden file. -/
def pathExtension (name : String) : Option String :=
  match lastDotSplit name.data with
  | none => none
  | some (before, after) => if before = [] then none else some (String.mk after)

/-- The location-specific protected-file table of `should_skip_file_advanced`
(lines 412-424). -/
def protected_files (location_name : String) : List String :=
  if location_name = "Windows Temp" then ["desktop.ini", "thumbs.db", "*.log"]
  else if location_name = "Benutzer Temp" then ["desktop.ini", "some_app_config"]
  else if location_name = "Windows Prefetch" then ["layout.ini", "pf.txt"]
  else if location_name = "Internet Explorer Cache" then ["index.dat", "*.dat"]
  else if location_name = "Chrome Cache" then ["index", "data_*"]
  else if location_name = "Firefox Cache" then
    ["places.sqlite", "cookies.sqlite", "*.sqlite-wal", "*.sqlite-shm"]
  else if location_name = "Edge Cache" then ["index", "data_*"]
  else if location_name = "Brave Cache" then ["index", "data_*"]
  else if location_name = "Windows Miniaturansichten" then
    ["thumbcache_*.db", "iconcache_*.db"]
  else if location_name = "Windows Update Cache" then ["*.cab", "*.msu"]
  else ["desktop.ini", "thumbs.db", "ntuser.dat", "iconcache.db", "bootsect.bak",
    "pagefile.sys"]

/-- Rust `str::starts_with('.')`: the first character is a dot. -/
def startsWithDot (name : String) : Bool :=
  match name.data with
  | c :: _ => c = '.'
  | [] => false

/-- `should_skip_file_advanced` (lines 396-427); `file_name` is the final
path component (`path.file_name()`). -/
def should_skip_file_advanced (file_name : String) (location_name : String)
    (options : CleaningOptions) : Bool :=
  if startsWithDot file_name then true
  else if options.excluded_patterns.any (fun p => matches_pattern file_name p) then true
  else (protected_files location_name).any (fun p => matches_pattern file_name p)

/-- `is_file_older_than_days` (lines 752-761): `now.duration_since(modified)`
is `Err` exactly when the modification time is in the future, and that error
is turned into `Ok(false)` (line 759). -/
def is_file_older_than_days (modified now days : Nat) : Bool :=
  if modified ≤ now then now - modified ≥ days * 24 * 60 * 60 else false

/-- The message constant used for an `fs::metadata` failure (line 341
stringifies the `io::Error`; the text itself is never inspected). -/
def metadataErrMsg : String := "metadata error"

/-- The message constant for an `Err` entry yielded by `read_dir` iteration
(line 270). -/
def entryErrMsg : String := "entry error"

/-- `process_file` (lines 312-393) on a file node with name `name`, size
`size`, modification time `modified` and failure knobs `metaErr`/`removeErr`.
Returns `(removed, summary)` where `removed` is true exactly when the file
was really unlinked (a successful non-dry-run `fs::remove_file`). -/
def process_file (now : Nat) (name : String) (size modified : Nat)
    (metaErr : Bool) (removeErr : Option IoErr) (location_name : String)
    (options : CleaningOptions) (summary : CleaningSummary) :
    Bool × CleaningSummary :=
  if should_skip_file_advanced name location_name options then
    (false, { summary with skipped_files := summary.skipped_files + 1 })
  else if (match options.target_extensions with
      | some extensions =>
        (match pathExtension name with
          | some ext => !(extensions.any (fun e => eq_ignore_ascii_case e ext))
          | none => true)
      | none => false) then
    (false, { summary with skipped_files := summary.skipped_files + 1 })
  else if metaErr then
    (false, summary.add_error (.IoError name metadataErrMsg))
  else if 0 < options.max_file_size ∧ options.max_file_size < size then
    (false, { summary with skipped_files := summary.skipped_files + 1 })
  else if 0 < options.min_file_size ∧ size < options.min_file_size then
    (false, { summary with skipped_files := summary.skipped_files + 1 })
  else if !(is_file_older_than_days modified now options.min_file_age_days) then
    (false, { summary with skipped_files := summary.skipped_files + 1 })
  else if options.dry_run then
    (false, { summary with deleted_files := summary.deleted_files + 1,
                           total_size := summary.total_size + size })
  else
    match removeErr with
    | none =>
      (true, { summary with deleted_files := summary.deleted_files + 1,
                            total_size := summary.total_size + size })
    | some e =>
      let s1 := summary.add_error (classify_remove_error name e)
      (false, { s1 with skipped_files := s1.skipped_files + 1 })

/-! ## Traversal engine (temp_files.rs lines 243-309, 480-523)

`clean_directory_advanced` is split exactly along the three phases of the
source body:

1. `cleanEntriesFiles` is the `for entry in entries` loop (lines 266-296):
   it processes file entries through `process_file`, records `Err` entries,
   counts symlinked directories as skipped, stops at the `break` when
   `max_files` is reached, and flags with `true` the non-symlink
   subdirectories that line 291 pushes onto `directories_to_process`
   (an entry of the result is `(pushed, node-still-on-disk)`; a file entry
   deleted by `process_file` is dropped);
2. `cleanSubdirs` is the `for dir_path in directories_to_process` loop
   (lines 299-301): it recurses into each flagged subdirectory, and the `?`
   on line 300 makes the first failure abort the loop, leaving the
   remaining flagged siblings unprocessed;
3. `remove_empty_directories_safe` (lines 480-523) is the bottom-up
   empty-directory pass, invoked on line 305 behind `options.remove_empty_dirs`
   (again with `?`).

Each phase returns the updated on-disk state together with the updated
summary, and the engine returns `Option String` for the
`Result<(), String>` of the source (`none` = `Ok`). -/

/-- Phase 1, the `for entry in entries` loop (lines 266-296).  `dirName` is
the directory whose listing is being iterated (the path attributed to an
`Err` entry on line 270). -/
def cleanEntriesFiles (now : Nat) (dirName location_name : String)
    (options : CleaningOptions) :
    List (Option FSNode) → CleaningSummary →
    List (Bool × Option FSNode) × CleaningSummary
  | [], s => ([], s)
  | none :: rest, s =>
    let s1 := s.add_error (.IoError dirName entryErrMsg)
    let r := cleanEntriesFiles now dirName location_name options rest s1
    ((false, none) :: r.1, r.2)
  | some n :: rest, s =>
    if 0 < options.max_files ∧ options.max_files ≤ s.deleted_files then
      ((false, some n) :: rest.map (fun e => (false, e)), s)
    else
      match n with
      | .file nm sz md me re =>
        let pr := process_file now nm sz md me re location_name options s
        let r := cleanEntriesFiles now dirName location_name options rest pr.2
        (if pr.1 then r.1 else (false, some n) :: r.1, r.2)
      | .dir _ _ _ _ =>
        let r := cleanEntriesFiles now dirName location_name options rest s
        ((options.recursive, some n) :: r.1, r.2)
      | .symlinkDir _ _ _ _ =>
        if options.recursive then
          let s1 := { s with skipped_files := s.skipped_files + 1 }
          let r := cleanEntriesFiles now dirName location_name options rest s1
          ((false, some n) :: r.1, r.2)
        else
          let r := cleanEntriesFiles now dirName location_name options rest s
          ((false, some n) :: r.1, r.2)

/-- Weight of a flagged entry list (the flag carries no weight). -/
def flaggedWeight : List (Bool × Option FSNode) → Nat
  | [] => 0
  | (_, none) :: r => 1 + flaggedWeight r
  | (_, some n) :: r => 1 + nodeWeight n + flaggedWeight r

theorem flaggedWeight_map_false (es : List (Option FSNode)) :
    flaggedWeight (es.map (fun e => (false, e))) = entWeightList es := by
  induction es with
  | nil => simp [flaggedWeight, entWeightList]
  | cons e r ih => cases e <;> simp [flaggedWeight, entWeightList, ih]

/-- Phase 1 only removes file entries, so the weight never grows. -/
theorem cleanEntriesFiles_weight_le (now : Nat) (dn ln : String)
    (o : CleaningOptions) (es : List (Option FSNode)) :
    ∀ s : CleaningSummary,
      flaggedWeight (cleanEntriesFiles now dn ln o es s).1 ≤ entWeightList es := by
  induction es with
  | nil => intro s; simp [cleanEntriesFiles, flaggedWeight]
  | cons e rest ih =>
    intro s
    match e with
    | none =>
      simp only [cleanEntriesFiles, flaggedWeight, entWeightList]
      have := ih (CleaningSummary.add_error s (.IoError dn entryErrMsg))
      omega
    | some n =>
      simp only [cleanEntriesFiles]
      split
      · simp only [flaggedWeight, entWeightList, flaggedWeight_map_false]
        omega
      · match n with
        | .file nm sz md me re =>
          simp only [flaggedWeight, entWeightList]
          have h1 := ih (process_file now nm sz md me re ln o s).2
          split <;> simp only [flaggedWeight, nodeWeight] <;> omega
        | .dir nm₁ es₁ ro₁ rm₁ =>
          simp only [flaggedWeight, entWeightList]
          have h1 := ih s
          omega
        | .symlinkDir nm₁ es₁ ro₁ rm₁ =>
          simp only [entWeightList]
          split
          · have h1 := ih { s with skipped_files := s.skipped_files + 1 }
            simp only [flaggedWeight]
            omega
          · have h1 := ih s
            simp only [flaggedWeight]
            omega

mutual

/-- Phase 3: `remove_empty_directories_safe` (lines 480-523).  A `read_dir`
failure on `dir` itself is swallowed (`Err(_) => return Ok(())`, line 487);
an `Err` entry aborts the pass with an error (`map_err(..)?`, line 491).
The recursion on line 496 follows every entry with `path.is_dir() = true`,
including symlinked directories. -/
def remove_empty_directories_safe (options : CleaningOptions) (t : FSNode)
    (s : CleaningSummary) : FSNode × CleaningSummary × Option String :=
  match t with
  | .file _ _ _ _ _ => (t, s, none)
  | .dir nm es ro rm =>
    if ro then
      let r := removeEmptyEntries options es s
      (.dir nm r.1 ro rm, r.2.1, r.2.2)
    else (t, s, none)
  | .symlinkDir nm es ro rm =>
    if ro then
      let r := removeEmptyEntries options es s
      (.symlinkDir nm r.1 ro rm, r.2.1, r.2.2)
    else (t, s, none)
termination_by 2 * nodeWeight t + 1
decreasing_by all_goals (simp only [nodeWeight, entWeightList]; omega)

/-- The `for entry in entries` loop of `remove_empty_directories_safe`
(lines 490-520): recurse into each directory entry, then remove it (or, in
dry-run mode, only count it) when `is_directory_empty` now holds. -/
def removeEmptyEntries (options : CleaningOptions) :
    List (Option FSNode) → CleaningSummary →
    List (Option FSNode) × CleaningSummary × Option String
  | [], s => ([], s, none)
  | none :: rest, s => (none :: rest, s, some entryErrMsg)
  | some n :: rest, s =>
    if isDirNode n then
      let rc := remove_empty_directories_safe options n s
      match rc.2.2 with
      | some e => (some rc.1 :: rest, rc.2.1, some e)
      | none =>
        if is_directory_empty rc.1 then
          if options.dry_run then
            let s1 := { rc.2.1 with
              empty_dirs_removed := rc.2.1.empty_dirs_removed + 1 }
            let r := removeEmptyEntries options rest s1
            (some rc.1 :: r.1, r.2)
          else
            match rmdirErrOf rc.1 with
            | none =>
              let s1 := { rc.2.1 with
                empty_dirs_removed := rc.2.1.empty_dirs_removed + 1 }
              let r := removeEmptyEntries options rest s1
              (r.1, r.2)
            | some em =>
              let s1 := rc.2.1.add_error (.IoError (nodeName rc.1) em)
              let r := removeEmptyEntries options rest s1
              (some rc.1 :: r.1, r.2)
        else
          let r := removeEmptyEntries options rest rc.2.1
          (some rc.1 :: r.1, r.2)
    else
      let r := removeEmptyEntries options rest s
      (some n :: r.1, r.2)
termination_by es _ => 2 * entWeightList es + 2
decreasing_by all_goals (simp only [nodeWeight, entWeightList]; omega)

end

mutual

/-- `clean_directory_advanced` (lines 243-309).  The existence/kind check on
line 249 fails on a file node (the node exists; `is_dir` is false); the
`max_files` short-circuit is line 254; an unreadable listing is the `Err`
arm on line 260; then the three phases run in source order, with the `?` of
lines 300 and 305 propagated through the `Option String` component. -/
def clean_directory_advanced (now : Nat) (location_name : String)
    (options : CleaningOptions) (t : FSNode) (s : CleaningSummary) :
    FSNode × CleaningSummary × Option String :=
  match t with
  | .file nm _ _ _ _ =>
    (t, s, some (nm ++ " existiert nicht oder ist kein Verzeichnis"))
  | .dir nm es ro rm =>
    if 0 < options.max_files ∧ options.max_files ≤ s.deleted_files then
      (t, s, none)
    else if ro then
      have hw : flaggedWeight (cleanEntriesFiles now nm location_name options es s).1
          ≤ entWeightList es :=
        cleanEntriesFiles_weight_le now nm location_name options es s
      let p2 := cleanSubdirs now location_name options
        (cleanEntriesFiles now nm location_name options es s).1
        (cleanEntriesFiles now nm location_name options es s).2
      match p2.2.2 with
      | some e => (.dir nm p2.1 ro rm, p2.2.1, some e)
      | none =>
        if options.remove_empty_dirs then
          remove_empty_directories_safe options (.dir nm p2.1 ro rm) p2.2.1
        else (.dir nm p2.1 ro rm, p2.2.1, none)
    else (t, s, some ("Verzeichnis " ++ nm ++ " konnte nicht gelesen werden"))
  | .symlinkDir nm es ro rm =>
    if 0 < options.max_files ∧ options.max_files ≤ s.deleted_files then
      (t, s, none)
    else if ro then
      have hw : flaggedWeight (cleanEntriesFiles now nm location_name options es s).1
          ≤ entWeightList es :=
        cleanEntriesFiles_weight_le now nm location_name options es s
      let p2 := cleanSubdirs now location_name options
        (cleanEntriesFiles now nm location_name options es s).1
        (cleanEntriesFiles now nm location_name options es s).2
      match p2.2.2 with
      | some e => (.symlinkDir nm p2.1 ro rm, p2.2.1, some e)
      | none =>
        if options.remove_empty_dirs then
          remove_empty_directories_safe options (.symlinkDir nm p2.1 ro rm) p2.2.1
        else (.symlinkDir nm p2.1 ro rm, p2.2.1, none)
    else (t, s, some ("Verzeichnis " ++ nm ++ " konnte nicht gelesen werden"))
termination_by 2 * nodeWeight t + 1
decreasing_by all_goals (simp only [nodeWeight, flaggedWeight] at *; omega)

/-- Phase 2, the `for dir_path in directories_to_process` loop (lines
299-301): recurse into every entry flagged by phase 1; the `?` on line 300
turns the first recursive failure into an immediate return, leaving the
later flagged siblings unprocessed. -/
def cleanSubdirs (now : Nat) (location_name : String)
    (options : CleaningOptions) :
    List (Bool × Option FSNode) → CleaningSummary →
    List (Option FSNode) × CleaningSummary × Option String
  | [], s => ([], s, none)
  | (true, some n) :: rest, s =>
    let rc := clean_directory_advanced now location_name options n s
    match rc.2.2 with
    | some e => (some rc.1 :: rest.map Prod.snd, rc.2.1, some e)
    | none =>
      let r := cleanSubdirs now location_name options rest rc.2.1
      (some rc.1 :: r.1, r.2)
  | (true, none) :: rest, s =>
    let r := cleanSubdirs now location_name options rest s
    (none :: r.1, r.2)
  | (false, ent) :: rest, s =>
    let r := cleanSubdirs now location_name options rest s
    (ent :: r.1, r.2)
termination_by es _ => 2 * flaggedWeight es + 2
decreasing_by all_goals (first
  | (simp only [flaggedWeight]; omega)
  | (rcases ent with _ | n <;> simp only [flaggedWeight] <;> omega))

end

/-! ## Orchestrator (temp_files.rs lines 175-240, 568-602)

`get_all_temp_locations` and `get_browser_cache_info`/`expand_environment_path`
read environment variables and the on-disk profile layout; their result —
the named locations with their candidate root paths, and the browser
profiles with their resolved, existing cache paths — is the input
environment `Env` of the orchestrator.  A candidate path for which
`path.exists()` (resp. `cache_path.exists()`) is false is a `none` entry. -/

/-- The run environment: what the location registry and path resolver
produce for this run. -/
structure Env where
  temp_locations : List (String × List (Option FSNode))
  browser_caches : List (String × List (Option FSNode))

/-- The `for path in paths` loop (lines 200-208) and the inner cache-path
loop of `clean_browser_caches` (lines 577-587): skip a non-existing path,
else run the traversal engine, wrapping a returned failure as
`CleaningError::IoError(path, e)` (line 203 / 583). -/
def cleanLocationPaths (now : Nat) (location_name : String)
    (options : CleaningOptions) :
    List (Option FSNode) → CleaningSummary →
    List (Option FSNode) × CleaningSummary
  | [], s => ([], s)
  | none :: rest, s =>
    let r := cleanLocationPaths now location_name options rest s
    (none :: r.1, r.2)
  | some t :: rest, s =>
    let rc := clean_directory_advanced now location_name options t s
    let s2 := match rc.2.2 with
      | some e => rc.2.1.add_error (.IoError (nodeName t) e)
      | none => rc.2.1
    let r := cleanLocationPaths now location_name options rest s2
    (some rc.1 :: r.1, r.2)

/-- One iteration of the location loop (lines 194-224) = one iteration of
the browser loop (lines 571-599): snapshot the counters, clean every
candidate path, then store the per-location delta when the location did
measurable work (line 216). -/
def cleanOneLocation (now : Nat) (options : CleaningOptions)
    (location_name : String) (paths : List (Option FSNode))
    (s : CleaningSummary) : List (Option FSNode) × CleaningSummary :=
  let files_before := s.deleted_files
  let size_before := s.total_size
  let errors_before := s.errors.length
  let skipped_before := s.skipped_files
  let r := cleanLocationPaths now location_name options paths s
  let files_cleaned := r.2.deleted_files - files_before
  let size_cleaned := r.2.total_size - size_before
  let errors_count := r.2.errors.length - errors_before
  let skipped_count := r.2.skipped_files - skipped_before
  let s2 :=
    if 0 < files_cleaned ∨ 0 < errors_count ∨ 0 < skipped_count then
      r.2.add_location_data location_name files_cleaned size_cleaned
        errors_count skipped_count
    else r.2
  (r.1, s2)

/-- The `for (location_name, paths) in temp_locations` loop (lines 194-224)
and, with the browser list, the `for browser in browsers` loop (571-599). -/
def cleanLocations (now : Nat) (options : CleaningOptions) :
    List (String × List (Option FSNode)) → CleaningSummary →
    List (String × List (Option FSNode)) × CleaningSummary
  | [], s => ([], s)
  | (nm, paths) :: rest, s =>
    let r1 := cleanOneLocation now options nm paths s
    let r := cleanLocations now options rest r1.2
    ((nm, r1.1) :: r.1, r.2)

/-- `clean_browser_caches` (lines 568-602): the browser loop followed by the
unconditional `Ok(())` on line 601 — the function has no early return, so
the `Result` is always `Ok`. -/
def clean_browser_caches (now : Nat) (options : CleaningOptions)
    (browsers : List (String × List (Option FSNode))) (s : CleaningSummary) :
    Except String (List (String × List (Option FSNode)) × CleaningSummary) :=
  .ok (cleanLocations now options browsers s)

/-- `clean_temp_files_with_options` (lines 180-240): fresh summary, the
location loop, then `clean_browser_caches(...)?` (line 227, the only `?` in
the body) and `Ok(summary)`.  The updated environment (the on-disk state
after the run) is returned alongside the summary. -/
def clean_temp_files_with_options (now : Nat) (env : Env)
    (options : CleaningOptions) : Except String (Env × CleaningSummary) :=
  let r1 := cleanLocations now options env.temp_locations CleaningSummary.new
  match clean_browser_caches now options env.browser_caches r1.2 with
  | .error e => .error e
  | .ok r2 => .ok ({ temp_locations := r1.1, browser_caches := r2.1 }, r2.2)

/-- `clean_temp_files` (lines 175-177): default options. -/
def clean_temp_files (now : Nat) (env : Env) :
    Except String (Env × CleaningSummary) :=
  clean_temp_files_with_options now env CleaningOptions.default

/-! ## Error discriminators (verification-side helpers) -/

/-- The two error shapes that the engine can actually record. -/
def benignErrorB : CleaningError → Bool
  | .FileInUse _ => true
  | .IoError _ _ => true
  | _ => false

/-- Discriminator for the `PermissionDenied` variant. -/
def isPermissionDeniedErr : CleaningError → Bool
  | .PermissionDenied _ => true
  | _ => false

/-- Discriminator for the `DirectoryNotFound` variant. -/
def isDirectoryNotFoundErr : CleaningError → Bool
  | .DirectoryNotFound _ => true
  | _ => false

/-! ## Concrete run scenarios used by claim-level theorems -/

/-- A plain permission-denied `io::Error`: no raw OS code that matches a
sharing or lock violation, portable kind `PermissionDenied`. -/
def permErr : IoErr := { raw_os := none, kind := .permissionDenied, msg := "Zugriff verweigert" }

/-- A 10-byte file, modified at second 50, with healthy metadata and a
removal that succeeds. -/
def egFile (nm : String) : FSNode := .file nm 10 50 false none

/-- Default options with `min_file_age_days = 0` (so `egFile` entries are
old enough at `now = 100`) and no empty-directory pass. -/
def runOpts : CleaningOptions :=
  { CleaningOptions.default with min_file_age_days := 0, remove_empty_dirs := false }

/-- A location root for C1: subdirectory `A` holds an unreadable
subdirectory `A1` and a sibling `A2` with an eligible file, and `A` has the
sibling `B`, also with an eligible file. -/
def c1R : FSNode :=
  .dir "R"
    [some (.dir "A"
      [some (.dir "A1" [] false none),
       some (.dir "A2" [some (egFile "g")] true none)] true none),
     some (.dir "B" [some (egFile "h")] true none)] true none

/-- Environment for C1: the failing location root `R` followed by a second
location with one eligible file. -/
def c1env : Env :=
  { temp_locations :=
      [("L1", [some c1R]),
       ("L2", [some (.dir "C" [some (egFile "h2")] true none)])],
    browser_caches := [] }

/-- Environment for C4: the first location path exists but is a regular
file, the second is a healthy directory with one eligible file. -/
def c4env : Env :=
  { temp_locations :=
      [("L1", [some (egFile "p")]),
       ("L2", [some (.dir "C" [some (egFile "h2")] true none)])],
    browser_caches := [] }

/-- Environment for C5: one location whose single eligible file fails to be
removed with a plain permission denial. -/
def c5env : Env :=
  { temp_locations :=
      [("L", [some (.dir "D" [some (.file "f.tmp" 10 50 false (some permErr))] true none)])],
    browser_caches := [] }

/-- Tree for C7: a chain of empty directories `R/A/B`. -/
def c7R : FSNode :=
  .dir "R" [some (.dir "A" [some (.dir "B" [] true none)] true none)] true none

/-- Options for C7: non-recursive, empty-directory pass on, dry run. -/
def c7dry : CleaningOptions :=
  { CleaningOptions.default with recursive := false, dry_run := true }

/-- Options for C7: non-recursive, empty-directory pass on, real run. -/
def c7real : CleaningOptions :=
  { CleaningOptions.default with recursive := false, dry_run := false }

/-- Tree for C9: the location root holds one symlinked directory whose
target contains a file and an empty subdirectory `b`. -/
def c9R : FSNode :=
  .dir "R"
    [some (.symlinkDir "lnk"
      [some (egFile "keep"), some (.dir "b" [] true none)] true none)] true none

/-- Options for C9: the defaults (recursive, empty-directory pass on) with
`min_file_age_days = 0`. -/
def c9opts : CleaningOptions := { CleaningOptions.default with min_file_age_days := 0 }

/-- The summary of a run (C8 proves the `.error` arm is unreachable). -/
def runSummary (now : Nat) (env : Env) (o : CleaningOptions) : CleaningSummary :=
  match clean_temp_files_with_options now env o with
  | .ok r => r.2
  | .error _ => CleaningSummary.new

/-- The environment (on-disk state) returned by a run. -/
def runEnv (now : Nat) (env : Env) (o : CleaningOptions) : Env :=
  match clean_temp_files_with_options now env o with
  | .ok r => r.1
  | .error _ => env

/-! ## C2 — `matches_pattern` with two or more stars -/

/-- C2, counterexample.  The claim asserts that a pattern consisting of a
literal followed by two consecutive trailing stars matches the literal
alone; in the code, a non-final `'*'` only tries split points that leave a
nonempty filename remainder (the `while filename_chars.peek().is_some()`
loop, lines 453-460, followed by `return false`), so `"ab**"` fails on
`"ab"`. -/
theorem c2_counterexample : matches_pattern "ab" "ab**" = false := by
  simp [matches_pattern, matchesPatternCore, matchLoop, tryPositions, splitStar,
    eqIgnoreAsciiCaseL, asciiLower] <;> decide

/-- ASCII lowercasing is idempotent. -/
theorem asciiLower_idem (c : Char) : asciiLower (asciiLower c) = asciiLower c := by
  unfold asciiLower
  by_cases h : 'A' ≤ c ∧ c ≤ 'Z'
  · rw [if_pos h, if_neg]
    intro h2
    obtain ⟨h2a, h2b⟩ := h2
    obtain ⟨ha, hb⟩ := h
    have hca : ('A' : Char).toNat ≤ c.toNat := Char.le_def.mp ha
    have hcb : c.toNat ≤ ('Z' : Char).toNat := Char.le_def.mp hb
    have hv1 : ('A' : Char).toNat = 65 := by decide
    have hv2 : ('Z' : Char).toNat = 90 := by decide
    have hvalid : (c.toNat + 32).isValidChar := by
      left; omega
    have ht : (Char.ofNat (c.toNat + 32)).toNat = c.toNat + 32 := by
      unfold Char.ofNat
      rw [dif_pos hvalid]
      rfl
    have h2b' : (Char.ofNat (c.toNat + 32)).toNat ≤ ('Z' : Char).toNat :=
      Char.le_def.mp h2b
    omega
  · rw [if_neg h, if_neg h]

/-- Lowercasing never produces `'*'` from another character. -/
theorem asciiLower_ne_star (c : Char) (h : c ≠ '*') : asciiLower c ≠ '*' := by
  unfold asciiLower
  split
  · intro h2
    rename_i hr
    obtain ⟨ha, hb⟩ := hr
    have hca : ('A' : Char).toNat ≤ c.toNat := Char.le_def.mp ha
    have hcb : c.toNat ≤ ('Z' : Char).toNat := Char.le_def.mp hb
    have hv1 : ('A' : Char).toNat = 65 := by decide
    have hv2 : ('Z' : Char).toNat = 90 := by decide
    have hvalid : (c.toNat + 32).isValidChar := by left; omega
    have ht : (Char.ofNat (c.toNat + 32)).toNat = c.toNat + 32 := by
      unfold Char.ofNat
      rw [dif_pos hvalid]
      rfl
    have : (Char.ofNat (c.toNat + 32)).toNat = ('*' : Char).toNat := by rw [h2]
    have hs : ('*' : Char).toNat = 42 := by decide
    omega
  · exact h

/-- `'*'` is not a letter, so lowercasing fixes it. -/
theorem asciiLower_star : asciiLower '*' = '*' := by decide

/-- Only `'*'` lowercases to `'*'`. -/
theorem asciiLower_eq_star {c : Char} (h : asciiLower c = '*') : c = '*' := by
  by_cases hc : c = '*'
  · exact hc
  · exact absurd h (asciiLower_ne_star c hc)

/-- Star tests commute with lowercasing. -/
theorem lower_beq_star (c : Char) : (asciiLower c == '*') = (c == '*') := by
  by_cases hc : c = '*'
  · subst hc; rw [asciiLower_star]
  · have h1 : (asciiLower c == '*') = false := by
      simp [asciiLower_ne_star c hc]
    have h2 : (c == '*') = false := by simp [hc]
    rw [h1, h2]

/-- Lowercasing a list is idempotent. -/
theorem lowerL_idem (l : List Char) :
    (l.map asciiLower).map asciiLower = l.map asciiLower := by
  induction l with
  | nil => rfl
  | cons c cs ih => simp [asciiLower_idem, ih]

/-- Lowercasing cannot introduce a `'*'` into a star-free list. -/
theorem star_not_mem_lower {l : List Char} (h : '*' ∉ l) :
    '*' ∉ l.map asciiLower := by
  intro hmem
  obtain ⟨a, ha, heq⟩ := List.mem_map.mp hmem
  exact h (asciiLower_eq_star heq ▸ ha)

/-- The `okPattern` class is stable under lowercasing. -/
theorem okPattern_lower (l : List Char) :
    okPattern (l.map asciiLower) = okPattern l := by
  induction l with
  | nil => rfl
  | cons c cs ih =>
    cases cs with
    | nil => simp [okPattern, lower_beq_star]
    | cons c2 rest =>
      simp only [List.map] at ih ⊢
      simp [okPattern, lower_beq_star, ih]

/-- An `okPattern` pattern contains a star (it ends in one). -/
theorem okPattern_contains_star : ∀ l : List Char, okPattern l = true → '*' ∈ l := by
  intro l
  induction l with
  | nil => intro h; exact absurd h (by decide)
  | cons c cs ih =>
    intro h
    cases cs with
    | nil =>
      have : c = '*' := by simpa [okPattern] using h
      simp [this]
    | cons c2 rest =>
      have h2 : okPattern (c2 :: rest) = true := by
        simp [okPattern] at h; exact h.2
      exact List.mem_cons_of_mem c (ih h2)

/-- After a leading star an `okPattern` pattern continues with a literal. -/
theorem okPattern_cons_of_star {c : Char} {rest : List Char}
    (h : okPattern ('*' :: c :: rest) = true) :
    c ≠ '*' ∧ okPattern (c :: rest) = true := by
  simp [okPattern] at h
  exact h

/-- Dropping a leading literal keeps a pattern in the class. -/
theorem okPattern_cons_of_lit {p : Char} {ps : List Char} (hp : p ≠ '*')
    (h : okPattern (p :: ps) = true) : ps ≠ [] ∧ okPattern ps = true := by
  cases ps with
  | nil => simp [okPattern, hp] at h
  | cons c rest =>
    refine ⟨by simp, ?_⟩
    simp [okPattern] at h
    exact h.2

/-- Decomposition of an `okPattern` pattern at its first star: either a
star-free literal followed by one final star, or a star-free literal, a
star, and a shorter `okPattern` pattern starting with a literal. -/
theorem okPattern_shape : ∀ pat : List Char, okPattern pat = true →
    (∃ l1, pat = l1 ++ ['*'] ∧ '*' ∉ l1) ∨
    (∃ l1 c rest, pat = l1 ++ '*' :: c :: rest ∧ '*' ∉ l1 ∧ c ≠ '*' ∧
      okPattern (c :: rest) = true) := by
  intro pat
  induction pat with
  | nil => intro h; exact absurd h (by decide)
  | cons p ps ih =>
    intro hok
    by_cases hp : p = '*'
    · subst hp
      cases ps with
      | nil => exact Or.inl ⟨[], rfl, by simp⟩
      | cons c rest =>
        obtain ⟨hc, hok2⟩ := okPattern_cons_of_star hok
        exact Or.inr ⟨[], c, rest, rfl, by simp, hc, hok2⟩
    · obtain ⟨hne, hok2⟩ := okPattern_cons_of_lit hp hok
      rcases ih hok2 with ⟨l1, he, hm⟩ | ⟨l1, c2, r2, he, hm, hc2, hok3⟩
      · refine Or.inl ⟨p :: l1, by rw [he]; rfl, ?_⟩
        simp [hm]
        exact fun h => hp h.symm
      · refine Or.inr ⟨p :: l1, c2, r2, by rw [he]; rfl, ?_, hc2, hok3⟩
        simp [hm]
        exact fun h => hp h.symm

/-- `split('*')` never yields an empty part list. -/
theorem splitStar_ne_nil : ∀ l : List Char, splitStar l ≠ [] := by
  intro l
  induction l with
  | nil => simp [splitStar]
  | cons c cs ih =>
    simp only [splitStar]
    split
    · simp
    · cases h : splitStar cs with
      | nil => exact absurd h ih
      | cons p ps => simp

/-- `split('*')` at the first star. -/
theorem splitStar_append : ∀ l1 rest : List Char, '*' ∉ l1 →
    splitStar (l1 ++ '*' :: rest) = l1 :: splitStar rest := by
  intro l1
  induction l1 with
  | nil =>
    intro rest _
    simp [splitStar]
  | cons c l1t ih =>
    intro rest h
    have hc : ¬(c = '*') := fun he => h (he ▸ List.mem_cons_self c l1t)
    have ht : '*' ∉ l1t := fun hm => h (List.mem_cons_of_mem c hm)
    simp only [List.cons_append, splitStar, hc, if_false, List.append_eq]
    rw [ih rest ht]

/-- A list containing a star splits into at least two parts. -/
theorem splitStar_length_ge_two : ∀ l : List Char, '*' ∈ l →
    2 ≤ (splitStar l).length := by
  intro l
  induction l with
  | nil => intro h; simp at h
  | cons c cs ih =>
    intro h
    by_cases hc : c = '*'
    · subst hc
      simp only [splitStar, if_pos rfl, if_true, List.length_cons]
      have := List.length_pos.mpr (splitStar_ne_nil cs)
      omega
    · have hcs : '*' ∈ cs := by
        rcases List.mem_cons.mp h with he | hm
        · exact absurd he.symm hc
        · exact hm
      have h2 := ih hcs
      simp only [splitStar, hc, if_false]
      cases hsc : splitStar cs with
      | nil => exact absurd hsc (splitStar_ne_nil cs)
      | cons p ps =>
        rw [hsc] at h2
        simpa using h2

/-- `pattern.contains('*')` holds whenever the pattern has a star. -/
theorem contains_star_append (l1 rest : List Char) :
    (l1 ++ '*' :: rest).contains '*' = true :=
  List.elem_eq_true_of_mem (by simp)

/-- Reference matcher: a sole trailing star matches anything. -/
theorem glob_star_any : ∀ fn : List Char, globMatchL ['*'] fn = true := by
  intro fn
  induction fn with
  | nil => simp [globMatchL]
  | cons f fs ih => simp [globMatchL, ih]

/-- Reference matcher: a star-free literal followed by one star matches
exactly the filenames starting with the literal. -/
theorem glob_lit_star : ∀ l1 : List Char, '*' ∉ l1 → ∀ fn : List Char,
    globMatchL (l1 ++ ['*']) fn = l1.isPrefixOf fn := by
  intro l1
  induction l1 with
  | nil =>
    intro _ fn
    simp [glob_star_any, List.isPrefixOf]
  | cons c l1t ih =>
    intro h fn
    have hc : ¬(c = '*') := fun he => h (he ▸ List.mem_cons_self c l1t)
    have ht : '*' ∉ l1t := fun hm => h (List.mem_cons_of_mem c hm)
    cases fn with
    | nil => simp [globMatchL, hc, List.isPrefixOf]
    | cons f fs => simp [globMatchL, hc, List.isPrefixOf, ih ht fs]

/-- The `parts.len() == 2` branch (lines 435-438) for a pattern that is a
star-free literal plus one trailing star: the `ends_with` test against the
empty second part is vacuous, leaving the `starts_with` test. -/
theorem matchCore_one_star (l1 : List Char) (h : '*' ∉ l1) (fn : List Char) :
    matchesPatternCore fn (l1 ++ ['*']) =
      (l1.map asciiLower).isPrefixOf (fn.map asciiLower) := by
  have hc : (l1 ++ ['*']).contains '*' = true := contains_star_append l1 []
  have hs : splitStar (l1 ++ ['*']) = [l1, []] := by
    have := splitStar_append l1 [] h
    simpa [splitStar] using this
  rw [matchesPatternCore]
  simp [hc, hs, List.isSuffixOf, List.isPrefixOf]

/-- The `parts.len() >= 3` branch (lines 439-472) reduces to the lowered
character walk `matchLoop`. -/
theorem matchCore_complex (l1 rest : List Char) (h1 : '*' ∉ l1) (h2 : '*' ∈ rest)
    (fn : List Char) :
    matchesPatternCore fn (l1 ++ '*' :: rest) =
      matchLoop ((l1 ++ '*' :: rest).map asciiLower) (fn.map asciiLower) := by
  have hc : (l1 ++ '*' :: rest).contains '*' = true := contains_star_append l1 rest
  have hs : splitStar (l1 ++ '*' :: rest) = l1 :: splitStar rest :=
    splitStar_append l1 rest h1
  have hlen : 2 ≤ (splitStar rest).length := splitStar_length_ge_two rest h2
  rw [matchesPatternCore]
  have hne : splitStar rest ≠ [] := splitStar_ne_nil rest
  have hlen1 : (splitStar rest).length ≠ 1 := by omega
  simp [hc, hs, hne, hlen1]

/-- Core equivalence: on lowered inputs and an `okPattern` pattern the
complex-branch walk of the source coincides with the reference matcher.
Strong induction on the pattern length; the backtracking loop re-enters
`matches_pattern` on the pattern remainder after the star, which is again
in the class and strictly shorter. -/
theorem matchLoop_glob : ∀ n : Nat, ∀ pat : List Char, pat.length ≤ n →
    okPattern pat = true → pat.map asciiLower = pat →
    ∀ fn : List Char, fn.map asciiLower = fn →
    matchLoop pat fn = globMatchL pat fn := by
  intro n
  induction n with
  | zero =>
    intro pat hlen hok _ _ _
    have : pat = [] := List.eq_nil_of_length_eq_zero (Nat.le_zero.mp hlen)
    subst this
    exact absurd hok (by decide)
  | succ n ih =>
    intro pat hlen hok hlowp fn hlowf
    cases pat with
    | nil => exact absurd hok (by decide)
    | cons p ps =>
      have hlen2 : ps.length ≤ n := by
        simp only [List.length_cons] at hlen; omega
      have hlowp2 : asciiLower p = p ∧ ps.map asciiLower = ps := by
        simpa using hlowp
      by_cases hp : p = '*'
      · subst hp
        cases ps with
        | nil =>
          rw [matchLoop.eq_def]
          simp [glob_star_any]
        | cons c rest =>
          obtain ⟨hc, hokps⟩ := okPattern_cons_of_star hok
          have hstep : matchLoop ('*' :: c :: rest) fn = tryPositions fn (c :: rest) := by
            rw [matchLoop.eq_def]; simp
          rw [hstep]
          -- re-entry: the code re-enters matches_pattern on the pattern remainder
          have reentry : ∀ fn2 : List Char, fn2.map asciiLower = fn2 →
              matchesPatternCore fn2 (c :: rest) = globMatchL (c :: rest) fn2 := by
            intro fn2 hlow2
            rcases okPattern_shape (c :: rest) hokps with
              ⟨l1, he, hm⟩ | ⟨l1, c2, r2, he, hm, hc2, hok3⟩
            · rw [he, matchCore_one_star l1 hm fn2]
              have hlowl1 : l1.map asciiLower = l1 := by
                have hx : l1.map asciiLower ++ ['*'] = l1 ++ ['*'] := by
                  have := hlowp2.2
                  rw [he] at this
                  simpa [asciiLower_star] using this
                exact (List.append_inj hx (by simp)).1
              rw [hlowl1, hlow2, glob_lit_star l1 hm fn2]
            · have hmem : '*' ∈ c2 :: r2 := okPattern_contains_star _ hok3
              rw [he, matchCore_complex l1 (c2 :: r2) hm hmem fn2]
              have hlowps2 : (l1 ++ '*' :: c2 :: r2).map asciiLower = l1 ++ '*' :: c2 :: r2 := by
                rw [← he]; exact hlowp2.2
              rw [hlowps2, hlow2]
              have hlenps : (l1 ++ '*' :: c2 :: r2).length ≤ n := by
                rw [← he]; exact hlen2
              exact ih (l1 ++ '*' :: c2 :: r2) hlenps (he ▸ hokps) hlowps2 fn2 hlow2
          have inner : ∀ fn2 : List Char, fn2.map asciiLower = fn2 →
              tryPositions fn2 (c :: rest) = globMatchL ('*' :: c :: rest) fn2 := by
            intro fn2
            induction fn2 with
            | nil =>
              intro _
              rw [tryPositions.eq_def, globMatchL.eq_def]
              simp [globMatchL, hc]
            | cons f fs ihf =>
              intro hlow2
              have hlowfs : fs.map asciiLower = fs := (by simpa using hlow2 : _ ∧ _).2
              have hstep2 : tryPositions (f :: fs) (c :: rest) =
                  (matchesPatternCore (f :: fs) (c :: rest) || tryPositions fs (c :: rest)) := by
                rw [tryPositions.eq_def]
              have hg : globMatchL ('*' :: c :: rest) (f :: fs) =
                  (globMatchL (c :: rest) (f :: fs) || globMatchL ('*' :: c :: rest) fs) := by
                rw [globMatchL.eq_def]; simp
              rw [hstep2, hg, reentry (f :: fs) hlow2, ihf hlowfs]
          exact inner fn hlowf
      · cases fn with
        | nil =>
          rw [matchLoop.eq_def, globMatchL.eq_def]
          simp [hp]
        | cons f fs =>
          obtain ⟨hne, hokps⟩ := okPattern_cons_of_lit hp hok
          have hlowfs : fs.map asciiLower = fs := (by simpa using hlowf : _ ∧ _).2
          rw [matchLoop.eq_def, globMatchL.eq_def]
          simp only [hp, if_false]
          by_cases hpf : p = f
          · subst hpf
            simp [ih ps hlen2 hokps hlowp2.2 fs hlowfs]
          · simp [hpf]

/-- On every `okPattern` pattern the source matcher equals the reference
general wildcard matcher (case-insensitively). -/
theorem matchCore_glob (pat : List Char) (hok : okPattern pat = true) (fn : List Char) :
    matchesPatternCore fn pat = globMatchL (pat.map asciiLower) (fn.map asciiLower) := by
  rcases okPattern_shape pat hok with ⟨l1, he, hm⟩ | ⟨l1, c, rest, he, hm, hc, hok2⟩
  · subst he
    rw [matchCore_one_star l1 hm fn]
    have hmap : (l1 ++ ['*']).map asciiLower = l1.map asciiLower ++ ['*'] := by
      simp [asciiLower_star]
    rw [hmap, glob_lit_star (l1.map asciiLower) (star_not_mem_lower hm) (fn.map asciiLower)]
  · subst he
    have hmem : '*' ∈ c :: rest := okPattern_contains_star _ hok2
    rw [matchCore_complex l1 (c :: rest) hm hmem fn]
    apply matchLoop_glob ((l1 ++ '*' :: c :: rest).map asciiLower).length _ le_rfl
    · rw [okPattern_lower]; exact hok
    · exact lowerL_idem _
    · exact lowerL_idem _

/-- C2, amended: with two or more stars `matches_pattern` is NOT general
zero-or-more wildcard matching (spec-modelled here as `glob_matches`).  It
agrees with it exactly on every pattern ending in `'*'` with no two
adjacent `'*'` — the first conjunct, universal over all filenames and all
such patterns of any star count — and outside that class it deviates in
both directions: `"ab**"` (adjacent trailing stars) rejects `"ab"`, which
general matching accepts, because once the filename iterator is exhausted
a non-final star fails (lines 453-461); `"x*a*a"` (not star-final) accepts
`"xa"`, which general matching rejects, because the backtracking loop
re-enters `matches_pattern` on the remainder `"a*a"`, whose two-part
branch tests `starts_with` and `ends_with` independently and so lets the
prefix and the suffix overlap (lines 435-438); and `"**"` rejects the
empty filename, which general matching accepts. -/
theorem c2_theorem :
    (∀ filename pattern : String, okPattern pattern.data = true →
        matches_pattern filename pattern = glob_matches filename pattern) ∧
    glob_matches "ab" "ab**" = true ∧ matches_pattern "ab" "ab**" = false ∧
    glob_matches "xa" "x*a*a" = false ∧ matches_pattern "xa" "x*a*a" = true ∧
    glob_matches "" "**" = true ∧ matches_pattern "" "**" = false := by
  refine ⟨fun filename pattern h => matchCore_glob pattern.data h filename.data,
    ?_, ?_, ?_, ?_, ?_, ?_⟩ <;>
    (simp [matches_pattern, glob_matches, matchesPatternCore, matchLoop, tryPositions,
      globMatchL, splitStar, eqIgnoreAsciiCaseL, asciiLower] <;> decide)

/-- C2, witness: the universal conjunct instantiated at the in-class
pattern `"a*b*"` and the filename `"aXbc"`. -/
theorem c2_witness :
    okPattern ("a*b*".data) = true ∧
    matches_pattern "aXbc" "a*b*" = glob_matches "aXbc" "a*b*" :=
  ⟨by decide, c2_theorem.1 "aXbc" "a*b*" (by decide)⟩

/-! ## C6 — `format_bytes` -/

/-- C6, counterexample.  The claim asserts two-decimal rendering whenever the
scaled value is below 10 in the chosen unit, and in particular
`format_bytes(0) = "0.00 Bytes"`; the code additionally requires
`unit_idx > 0` (line 789), so every value in the `Bytes` range gets one
decimal digit: `format_bytes(0) = "0.0 Bytes"`. -/
theorem c6_counterexample :
    format_bytes 0 = "0.0 Bytes" ∧ ¬ format_bytes 0 = "0.00 Bytes" := by
  constructor <;>
    (simp [format_bytes, unit_idx, unitIdxGo, render_decimal, roundHalfEvenDiv,
      padZeros, UNITS] <;> decide)

/-- C6, amended: `format_bytes` scales by 1024 per unit step and renders two
decimals exactly when the scaled value is below 10 AND the chosen unit is
not `Bytes`; in the whole `Bytes` range (`n < 1024`) the output is the
one-decimal `"n.0 Bytes"`, and the KB examples of the claim hold. -/
theorem c6_theorem :
    format_bytes 0 = "0.0 Bytes" ∧
    format_bytes 1024 = "1.00 KB" ∧
    format_bytes 1536 = "1.50 KB" ∧
    format_bytes 1048576 = "1.00 MB" ∧
    ∀ n, n < 1024 → format_bytes n = Nat.repr n ++ ".0 Bytes" := by
  refine ⟨?_, ?_, ?_, ?_, ?_⟩
  · simp [format_bytes, unit_idx, unitIdxGo, render_decimal, roundHalfEvenDiv,
      padZeros, UNITS] <;> decide
  · simp [format_bytes, unit_idx, unitIdxGo, render_decimal, roundHalfEvenDiv,
      padZeros, UNITS] <;> decide
  · simp [format_bytes, unit_idx, unitIdxGo, render_decimal, roundHalfEvenDiv,
      padZeros, UNITS] <;> decide
  · simp [format_bytes, unit_idx, unitIdxGo, render_decimal, roundHalfEvenDiv,
      padZeros, UNITS] <;> decide
  · intro n h
    have hk : unit_idx n = 0 := by
      rw [unit_idx, unitIdxGo]
      simp [Nat.not_le.mpr h]
    have hr : roundHalfEvenDiv (n * 10 ^ 1) (1024 ^ 0) = n * 10 := by
      simp [roundHalfEvenDiv, Nat.mod_one]
    rw [format_bytes]
    simp only [hk, pow_zero, Nat.mul_one, Nat.lt_irrefl, and_false, if_false]
    rw [render_decimal]
    simp only [pow_zero] at hr
    rw [hr]
    have h1 : n * 10 / 10 ^ 1 = n := by omega
    have h2 : n * 10 % 10 ^ 1 = 0 := by omega
    rw [h1, h2]
    have h3 : padZeros 1 0 = "0" := by rfl
    rw [h3]
    show Nat.repr n ++ "." ++ "0" ++ " " ++ "Bytes" = Nat.repr n ++ ".0 Bytes"
    apply String.ext
    simp [String.data_append]

/-- C6, witness for the hypothesis-bearing conjunct of `c6_theorem`. -/
theorem c6_witness : format_bytes 3 = Nat.repr 3 ++ ".0 Bytes" :=
  c6_theorem.2.2.2.2 3 (by decide)

/-! ## C3 — `min_file_age_days = 0` and modification times -/

/-- C3, counterexample.  The claim asserts that with `min_file_age_days = 0`
a file whose reported modification time lies in the future is still
eligible; in the code `now.duration_since(modified)` returns `Err` for a
future timestamp and line 759 maps that to `Ok(false)`, so `process_file`
skips the file (here: modified at 150, now 100). -/
theorem c3_counterexample :
    (process_file 100 "a.tmp" 10 150 false none "X" runOpts
      CleaningSummary.new).2.deleted_files = 0 ∧
    (process_file 100 "a.tmp" 10 150 false none "X" runOpts
      CleaningSummary.new).2.skipped_files = 1 := by
  constructor <;>
    (simp [process_file, should_skip_file_advanced, startsWithDot, protected_files,
      matches_pattern, matchesPatternCore, matchLoop, tryPositions, splitStar,
      eqIgnoreAsciiCaseL, asciiLower, eq_ignore_ascii_case, pathExtension,
      lastDotSplit, is_file_older_than_days, runOpts, CleaningOptions.default,
      CleaningSummary.new] <;> decide)

/-- C3, amended: with `min_file_age_days = 0` every non-protected,
non-excluded file that passes the extension and size filters and whose
modification time is NOT in the future is eligible (the summary gains one
deleted file and no skip); a file with a future modification time is never
deleted, whatever the options; and with `min_file_age_days` large enough
that `now < days·86400`, no file is ever deleted. -/
theorem c3_theorem :
    (∀ (now : Nat) (nm : String) (sz md : Nat) (ln : String)
        (o : CleaningOptions) (s : CleaningSummary),
      o.min_file_age_days = 0 → md ≤ now →
      should_skip_file_advanced nm ln o = false →
      (match o.target_extensions with
        | some extensions =>
          (match pathExtension nm with
            | some ext => !(extensions.any (fun e => eq_ignore_ascii_case e ext))
            | none => true)
        | none => false) = false →
      ¬(0 < o.max_file_size ∧ o.max_file_size < sz) →
      ¬(0 < o.min_file_size ∧ sz < o.min_file_size) →
      (process_file now nm sz md false none ln o s).2.deleted_files
          = s.deleted_files + 1 ∧
      (process_file now nm sz md false none ln o s).2.skipped_files
          = s.skipped_files) ∧
    (∀ (now : Nat) (nm : String) (sz md : Nat) (me : Bool) (re : Option IoErr)
        (ln : String) (o : CleaningOptions) (s : CleaningSummary),
      now < md →
      (process_file now nm sz md me re ln o s).2.deleted_files = s.deleted_files) ∧
    (∀ (now : Nat) (nm : String) (sz md : Nat) (me : Bool) (re : Option IoErr)
        (ln : String) (o : CleaningOptions) (s : CleaningSummary),
      now < o.min_file_age_days * (24 * 60 * 60) →
      (process_file now nm sz md me re ln o s).2.deleted_files = s.deleted_files) := by
  refine ⟨?_, ?_, ?_⟩
  · intro now nm sz md ln o s h0 hmd hskip hext hmax hmin
    have hage : is_file_older_than_days md now o.min_file_age_days = true := by
      rw [is_file_older_than_days, h0]
      simp [hmd]
    unfold process_file
    simp only [hskip, hext, hage, hmax, hmin]
    simp only [Bool.false_eq_true, if_false, Bool.not_true, if_true]
    split <;> simp
  · intro now nm sz md me re ln o s h
    have hage : is_file_older_than_days md now o.min_file_age_days = false := by
      rw [is_file_older_than_days]
      split
      · simp; omega
      · rfl
    unfold process_file
    split_ifs <;> simp_all [CleaningSummary.add_error]
  · intro now nm sz md me re ln o s h
    have hage : is_file_older_than_days md now o.min_file_age_days = false := by
      rw [is_file_older_than_days]
      split
      · simp; omega
      · rfl
    unfold process_file
    split_ifs <;> simp_all [CleaningSummary.add_error]

/-- C3, witness: a concrete 10-byte file modified at 50 with `now = 100` and
`min_file_age_days = 0` is deleted and not skipped. -/
theorem c3_witness :
    (process_file 100 "b.tmp" 10 50 false none "X" runOpts
      CleaningSummary.new).2.deleted_files = CleaningSummary.new.deleted_files + 1 ∧
    (process_file 100 "b.tmp" 10 50 false none "X" runOpts
      CleaningSummary.new).2.skipped_files = CleaningSummary.new.skipped_files :=
  c3_theorem.1 100 "b.tmp" 10 50 "X" runOpts CleaningSummary.new rfl (by decide)
    (by simp [should_skip_file_advanced, startsWithDot, protected_files,
      matches_pattern, matchesPatternCore, matchLoop, tryPositions, splitStar,
      eqIgnoreAsciiCaseL, asciiLower, runOpts, CleaningOptions.default] <;> decide)
    rfl (by decide) (by decide)

/-! ## C5 — permission-denied classification -/

/-- The classifier of a failed `fs::remove_file` can only produce
`FileInUse` or `IoError`: when the portable kind is `PermissionDenied`, the
fallback arm of `is_file_in_use_error` already returns `true`, so the
`PermissionDenied` arm of `process_file` (line 385) is unreachable. -/
theorem classify_remove_error_benign (path : String) (e : IoErr) :
    benignErrorB (classify_remove_error path e) = true := by
  rw [classify_remove_error]
  split_ifs with h1 h2
  · rfl
  · exfalso
    apply h1
    rw [is_file_in_use_error]
    cases he : e.raw_os <;> simp [h2]
  · rfl

/-! ## Dry-run frame lemmas: with `dry_run = true` no node of the tree is
ever created, deleted or altered -/

/-- In dry-run mode `process_file` never unlinks the file. -/
theorem process_file_dry_keeps (now : Nat) (nm : String) (sz md : Nat)
    (me : Bool) (re : Option IoErr) (ln : String) (o : CleaningOptions)
    (ho : o.dry_run = true) (s : CleaningSummary) :
    (process_file now nm sz md me re ln o s).1 = false := by
  unfold process_file
  split_ifs <;> simp_all

/-- In dry-run mode phase 1 keeps every entry (only the flags are added). -/
theorem cleanEntriesFiles_dry (now : Nat) (dn ln : String) (o : CleaningOptions)
    (ho : o.dry_run = true) :
    ∀ (es : List (Option FSNode)) (s : CleaningSummary),
      ((cleanEntriesFiles now dn ln o es s).1).map Prod.snd = es := by
  intro es s
  induction es, s using cleanEntriesFiles.induct now dn ln o with
  | case1 s => simp [cleanEntriesFiles]
  | case2 rest s s1 ih => simp [cleanEntriesFiles]; exact ih
  | case3 n rest s h => simp [cleanEntriesFiles, h, Function.comp_def]
  | case4 rest s h n sz md me re pr ih =>
    have hpf := process_file_dry_keeps now n sz md me re ln o ho s
    simp only [cleanEntriesFiles, h, if_false, hpf] at ih ⊢
    simp [hpf]
    exact ih
  | case5 rest s h n es1 ro rm ih => simp [cleanEntriesFiles, h]; exact ih
  | case6 rest s h n es1 ro rm hrec s1 ih => simp [cleanEntriesFiles, h, hrec]; exact ih
  | case7 rest s h n es1 ro rm hrec ih =>
    simp [cleanEntriesFiles, h, hrec]; exact ih

/-- In dry-run mode the empty-directory pass removes nothing. -/
theorem remove_empty_dry (o : CleaningOptions) (ho : o.dry_run = true) :
    ∀ (t : FSNode) (s : CleaningSummary),
      (remove_empty_directories_safe o t s).1 = t := by
  refine fun t s =>
    remove_empty_directories_safe.induct o
      (fun t s => (remove_empty_directories_safe o t s).1 = t)
      (fun es s => (removeEmptyEntries o es s).1 = es)
      ?_ ?_ ?_ ?_ ?_ ?_ ?_ ?_ ?_ ?_ ?_ ?_ ?_ t s
  · intro s n sz md me re
    simp [remove_empty_directories_safe]
  · intro s n es rm ih
    simp [remove_empty_directories_safe, ih]
  · intro s n es ro rm hro
    simp [remove_empty_directories_safe, hro]
  · intro s n es rm ih
    simp [remove_empty_directories_safe, ih]
  · intro s n es ro rm hro
    simp [remove_empty_directories_safe, hro]
  · intro s
    simp [removeEmptyEntries]
  · intro rest s
    simp [removeEmptyEntries]
  · intro n rest s hdir rc ext herr ih1
    have herr' : (remove_empty_directories_safe o n s).2.2 = some ext := herr
    simp [removeEmptyEntries, hdir, herr', ih1]
  · intro n rest s hdir rc hnone hempty hdry s1 ih1 ih2
    have hnone' : (remove_empty_directories_safe o n s).2.2 = none := hnone
    simp only [removeEmptyEntries, hdir, if_true, hnone', hempty, hdry] at ih2 ⊢
    simp [ih1, ih2]
  · intro n rest s hdir rc hnone hempty hdry
    exact absurd ho hdry
  · intro n rest s hdir rc hnone hempty hdry
    exact fun _ _ => absurd ho hdry
  · intro n rest s hdir rc hnone hempty ih1 ih2
    have hnone' : (remove_empty_directories_safe o n s).2.2 = none := hnone
    simp only [removeEmptyEntries, hdir, if_true, hnone', hempty] at ih2 ⊢
    simp [ih1, ih2, hempty]
  · intro n rest s hdir ih
    simp [removeEmptyEntries, hdir, ih]

/-- In dry-run mode the traversal engine returns the tree unchanged. -/
theorem clean_directory_advanced_dry (now : Nat) (ln : String)
    (o : CleaningOptions) (ho : o.dry_run = true) :
    ∀ (t : FSNode) (s : CleaningSummary),
      (clean_directory_advanced now ln o t s).1 = t := by
  refine fun t s =>
    clean_directory_advanced.induct now ln o
      (fun t s => (clean_directory_advanced now ln o t s).1 = t)
      (fun es s => (cleanSubdirs now ln o es s).1 = es.map Prod.snd)
      ?_ ?_ ?_ ?_ ?_ ?_ ?_ ?_ ?_ ?_ ?_ ?_ ?_ ?_ ?_ ?_ t s
  · intro s n sz md me re
    simp [clean_directory_advanced]
  · intro s n es ro rm hmax
    simp [clean_directory_advanced, hmax]
  · intro s n es rm hmax hw p2 ext herr ih
    have herr' : (cleanSubdirs now ln o
        (cleanEntriesFiles now n ln o es s).1
        (cleanEntriesFiles now n ln o es s).2).2.2 = some ext := herr
    have h2 := cleanEntriesFiles_dry now n ln o ho es s
    simp [clean_directory_advanced, hmax, herr', ih, h2]
  · intro s n es rm hmax hw p2 hnone hrem ih
    have hnone' : (cleanSubdirs now ln o
        (cleanEntriesFiles now n ln o es s).1
        (cleanEntriesFiles now n ln o es s).2).2.2 = none := hnone
    have h2 := cleanEntriesFiles_dry now n ln o ho es s
    simp [clean_directory_advanced, hmax, hnone', hrem, ih, h2,
      remove_empty_dry o ho]
  · intro s n es rm hmax hw p2 hnone hrem ih
    have hnone' : (cleanSubdirs now ln o
        (cleanEntriesFiles now n ln o es s).1
        (cleanEntriesFiles now n ln o es s).2).2.2 = none := hnone
    have h2 := cleanEntriesFiles_dry now n ln o ho es s
    simp [clean_directory_advanced, hmax, hnone', hrem, ih, h2]
  · intro s n es ro rm hmax hro
    simp [clean_directory_advanced, hmax, hro]
  · intro s n es ro rm hmax
    simp [clean_directory_advanced, hmax]
  · intro s n es rm hmax hw p2 ext herr ih
    have herr' : (cleanSubdirs now ln o
        (cleanEntriesFiles now n ln o es s).1
        (cleanEntriesFiles now n ln o es s).2).2.2 = some ext := herr
    have h2 := cleanEntriesFiles_dry now n ln o ho es s
    simp [clean_directory_advanced, hmax, herr', ih, h2]
  · intro s n es rm hmax hw p2 hnone hrem ih
    have hnone' : (cleanSubdirs now ln o
        (cleanEntriesFiles now n ln o es s).1
        (cleanEntriesFiles now n ln o es s).2).2.2 = none := hnone
    have h2 := cleanEntriesFiles_dry now n ln o ho es s
    simp [clean_directory_advanced, hmax, hnone', hrem, ih, h2,
      remove_empty_dry o ho]
  · intro s n es rm hmax hw p2 hnone hrem ih
    have hnone' : (cleanSubdirs now ln o
        (cleanEntriesFiles now n ln o es s).1
        (cleanEntriesFiles now n ln o es s).2).2.2 = none := hnone
    have h2 := cleanEntriesFiles_dry now n ln o ho es s
    simp [clean_directory_advanced, hmax, hnone', hrem, ih, h2]
  · intro s n es ro rm hmax hro
    simp [clean_directory_advanced, hmax, hro]
  · intro s
    simp [cleanSubdirs]
  · intro n rest s rc ext herr ih
    have herr' : (clean_directory_advanced now ln o n s).2.2 = some ext := herr
    simp [cleanSubdirs, herr', ih]
  · intro n rest s rc hnone ih1 ih2
    have hnone' : (clean_directory_advanced now ln o n s).2.2 = none := hnone
    have ih2' : (cleanSubdirs now ln o rest
        (clean_directory_advanced now ln o n s).2.1).1 = rest.map Prod.snd := ih2
    simp [cleanSubdirs, hnone', ih1, ih2']
  · intro rest s ih
    simp [cleanSubdirs, ih]
  · intro ent rest s ih
    simp [cleanSubdirs, ih]

/-- In dry-run mode the per-path loop keeps every location path unchanged. -/
theorem cleanLocationPaths_dry (now : Nat) (ln : String) (o : CleaningOptions)
    (ho : o.dry_run = true) :
    ∀ (paths : List (Option FSNode)) (s : CleaningSummary),
      (cleanLocationPaths now ln o paths s).1 = paths := by
  intro paths s
  induction paths, s using cleanLocationPaths.induct now ln o with
  | case1 s => simp [cleanLocationPaths]
  | case2 rest s ih => simp [cleanLocationPaths]; exact ih
  | case3 t rest s rc s2 ih =>
    simp [cleanLocationPaths, clean_directory_advanced_dry now ln o ho]
    exact ih

/-- In dry-run mode the whole location loop returns the registry unchanged. -/
theorem cleanLocations_dry (now : Nat) (o : CleaningOptions)
    (ho : o.dry_run = true) :
    ∀ (locs : List (String × List (Option FSNode))) (s : CleaningSummary),
      (cleanLocations now o locs s).1 = locs := by
  intro locs
  induction locs with
  | nil => intro s; simp [cleanLocations]
  | cons l rest ih =>
    intro s
    obtain ⟨nm, paths⟩ := l
    simp [cleanLocations, cleanOneLocation, cleanLocationPaths_dry now nm o ho, ih]

/-- In dry-run mode the orchestrator performs zero filesystem mutations: the
returned environment is the input environment. -/
theorem clean_temp_files_dry (now : Nat) (env : Env) (o : CleaningOptions)
    (ho : o.dry_run = true) :
    ∃ s, clean_temp_files_with_options now env o = .ok (env, s) := by
  obtain ⟨tl, bc⟩ := env
  refine ⟨(cleanLocations now o bc
    (cleanLocations now o tl CleaningSummary.new).2).2, ?_⟩
  simp [clean_temp_files_with_options, clean_browser_caches,
    cleanLocations_dry now o ho]

/-! ## Error-shape lemmas: every error the engine ever records is either
`FileInUse` or `IoError`; the `DirectoryNotFound`, `PermissionDenied` and
`InvalidPath` variants are never constructed. -/

/-- Chaining lemma for error-membership invariants. -/
theorem mem_or_trans {γ : Type} {p : γ → Prop} {A B C : List γ}
    (h1 : ∀ x ∈ B, x ∈ A ∨ p x) (h2 : ∀ x ∈ C, x ∈ B ∨ p x) :
    ∀ x ∈ C, x ∈ A ∨ p x := by
  intro x hx
  rcases h2 x hx with h | h
  · exact h1 x h
  · exact Or.inr h

/-- Membership in the error list after `add_error`. -/
theorem mem_add_error {s : CleaningSummary} {e x : CleaningError}
    (hx : x ∈ (s.add_error e).errors) : x ∈ s.errors ∨ x = e := by
  simpa [CleaningSummary.add_error] using hx

/-- `add_location_data` never touches the error list. -/
theorem errors_add_location_data (s : CleaningSummary) (nm : String)
    (f sz er sk : Nat) : (s.add_location_data nm f sz er sk).errors = s.errors := rfl

/-- `process_file` only records `FileInUse` or `IoError` errors. -/
theorem process_file_errors (now : Nat) (nm : String) (sz md : Nat) (me : Bool)
    (re : Option IoErr) (ln : String) (o : CleaningOptions) (s : CleaningSummary) :
    ∀ x ∈ (process_file now nm sz md me re ln o s).2.errors,
      x ∈ s.errors ∨ benignErrorB x = true := by
  intro x hx
  cases re with
  | none =>
    unfold process_file at hx
    split_ifs at hx
    all_goals
      first
      | exact Or.inl hx
      | (rcases mem_add_error hx with h | h
         · exact Or.inl h
         · exact Or.inr (by rw [h]; rfl))
  | some e =>
    unfold process_file at hx
    split_ifs at hx
    all_goals
      first
      | exact Or.inl hx
      | (rcases mem_add_error hx with h | h
         · exact Or.inl h
         · exact Or.inr (by
             rw [h]
             first
             | rfl
             | exact classify_remove_error_benign nm e))

/-- Phase 1 only records `FileInUse` or `IoError` errors. -/
theorem cleanEntriesFiles_errors (now : Nat) (dn ln : String)
    (o : CleaningOptions) :
    ∀ (es : List (Option FSNode)) (s : CleaningSummary),
      ∀ x ∈ (cleanEntriesFiles now dn ln o es s).2.errors,
        x ∈ s.errors ∨ benignErrorB x = true := by
  intro es s
  induction es, s using cleanEntriesFiles.induct now dn ln o with
  | case1 s => intro x hx; exact Or.inl (by simpa [cleanEntriesFiles] using hx)
  | case2 rest s s1 ih =>
    intro x hx
    simp only [cleanEntriesFiles] at hx
    rcases ih x hx with h | h
    · rcases mem_add_error h with h2 | h2
      · exact Or.inl h2
      · exact Or.inr (by rw [h2]; rfl)
    · exact Or.inr h
  | case3 n rest s hmax =>
    intro x hx
    exact Or.inl (by simpa [cleanEntriesFiles, hmax] using hx)
  | case4 rest s hmax n sz md me re pr ih =>
    intro x hx
    simp only [cleanEntriesFiles, hmax, if_false] at hx
    rcases ih x hx with h | h
    · rcases process_file_errors now n sz md me re ln o s x h with h2 | h2
      · exact Or.inl h2
      · exact Or.inr h2
    · exact Or.inr h
  | case5 rest s hmax n es1 ro rm ih =>
    intro x hx
    simp only [cleanEntriesFiles, hmax, if_false] at hx
    exact ih x hx
  | case6 rest s hmax n es1 ro rm hrec s1 ih =>
    intro x hx
    simp only [cleanEntriesFiles, hmax, hrec, if_false, if_true] at hx
    exact ih x hx
  | case7 rest s hmax n es1 ro rm hrec ih =>
    intro x hx
    simp only [cleanEntriesFiles, hmax, hrec, if_false] at hx
    exact ih x hx

/-- The empty-directory pass only records `IoError` errors. -/
theorem remove_empty_errors (o : CleaningOptions) :
    ∀ (t : FSNode) (s : CleaningSummary),
      ∀ x ∈ (remove_empty_directories_safe o t s).2.1.errors,
        x ∈ s.errors ∨ benignErrorB x = true := by
  refine fun t s =>
    remove_empty_directories_safe.induct o
      (fun t s => ∀ x ∈ (remove_empty_directories_safe o t s).2.1.errors,
        x ∈ s.errors ∨ benignErrorB x = true)
      (fun es s => ∀ x ∈ (removeEmptyEntries o es s).2.1.errors,
        x ∈ s.errors ∨ benignErrorB x = true)
      ?_ ?_ ?_ ?_ ?_ ?_ ?_ ?_ ?_ ?_ ?_ ?_ ?_ t s
  · intro s n sz md me re x hx
    exact Or.inl (by simpa [remove_empty_directories_safe] using hx)
  · intro s n es rm ih x hx
    simp only [remove_empty_directories_safe, if_true] at hx
    exact ih x hx
  · intro s n es ro rm hro x hx
    exact Or.inl (by simpa [remove_empty_directories_safe, hro] using hx)
  · intro s n es rm ih x hx
    simp only [remove_empty_directories_safe, if_true] at hx
    exact ih x hx
  · intro s n es ro rm hro x hx
    exact Or.inl (by simpa [remove_empty_directories_safe, hro] using hx)
  · intro s x hx
    exact Or.inl (by simpa [removeEmptyEntries] using hx)
  · intro rest s x hx
    exact Or.inl (by simpa [removeEmptyEntries] using hx)
  · intro n rest s hdir rc ext herr ih1 x hx
    have herr' : (remove_empty_directories_safe o n s).2.2 = some ext := herr
    simp only [removeEmptyEntries, hdir, if_true, herr'] at hx
    exact ih1 x hx
  · intro n rest s hdir rc hnone hempty hdry s1 ih1 ih2 x hx
    have hnone' : (remove_empty_directories_safe o n s).2.2 = none := hnone
    simp only [removeEmptyEntries, hdir, if_true, hnone', hempty, hdry] at hx
    rcases ih2 x hx with h | h
    · exact ih1 x h
    · exact Or.inr h
  · intro n rest s hdir rc hnone hempty hdry hrm s1 ih1 ih2 x hx
    have hnone' : (remove_empty_directories_safe o n s).2.2 = none := hnone
    have hrm' : rmdirErrOf (remove_empty_directories_safe o n s).1 = none := hrm
    simp only [removeEmptyEntries, hdir, if_true, hnone', hempty, hrm'] at hx
    rw [if_neg hdry] at hx
    rcases ih2 x hx with h | h
    · exact ih1 x h
    · exact Or.inr h
  · intro n rest s hdir rc hnone hempty hdry em hrm s1 ih1 ih2 x hx
    have hnone' : (remove_empty_directories_safe o n s).2.2 = none := hnone
    simp only [removeEmptyEntries, hdir, if_true, hnone', hempty, hdry, hrm] at hx
    rcases ih2 x hx with h | h
    · rcases mem_add_error h with h2 | h2
      · exact ih1 x h2
      · exact Or.inr (by rw [h2]; rfl)
    · exact Or.inr h
  · intro n rest s hdir rc hnone hempty ih1 ih2 x hx
    have hnone' : (remove_empty_directories_safe o n s).2.2 = none := hnone
    simp only [removeEmptyEntries, hdir, if_true, hnone', hempty] at hx
    rcases ih2 x hx with h | h
    · exact ih1 x h
    · exact Or.inr h
  · intro n rest s hdir ih x hx
    simp only [removeEmptyEntries, hdir] at hx
    exact ih x hx

/-- The traversal engine only records `FileInUse` or `IoError` errors. -/
theorem clean_directory_advanced_errors (now : Nat) (ln : String)
    (o : CleaningOptions) :
    ∀ (t : FSNode) (s : CleaningSummary),
      ∀ x ∈ (clean_directory_advanced now ln o t s).2.1.errors,
        x ∈ s.errors ∨ benignErrorB x = true := by
  refine fun t s =>
    clean_directory_advanced.induct now ln o
      (fun t s => ∀ x ∈ (clean_directory_advanced now ln o t s).2.1.errors,
        x ∈ s.errors ∨ benignErrorB x = true)
      (fun es s => ∀ x ∈ (cleanSubdirs now ln o es s).2.1.errors,
        x ∈ s.errors ∨ benignErrorB x = true)
      ?_ ?_ ?_ ?_ ?_ ?_ ?_ ?_ ?_ ?_ ?_ ?_ ?_ ?_ ?_ ?_ t s
  · intro s n sz md me re x hx
    exact Or.inl (by simpa [clean_directory_advanced] using hx)
  · intro s n es ro rm hmax x hx
    exact Or.inl (by simpa [clean_directory_advanced, hmax] using hx)
  · intro s n es rm hmax hw p2 ext herr ih x hx
    have herr' : (cleanSubdirs now ln o
        (cleanEntriesFiles now n ln o es s).1
        (cleanEntriesFiles now n ln o es s).2).2.2 = some ext := herr
    simp only [clean_directory_advanced, hmax, if_false, if_true, herr'] at hx
    exact mem_or_trans (cleanEntriesFiles_errors now n ln o es s) ih x hx
  · intro s n es rm hmax hw p2 hnone hrem ih x hx
    have hnone' : (cleanSubdirs now ln o
        (cleanEntriesFiles now n ln o es s).1
        (cleanEntriesFiles now n ln o es s).2).2.2 = none := hnone
    simp only [clean_directory_advanced, hmax, if_false, if_true, hnone', hrem] at hx
    refine mem_or_trans (mem_or_trans (cleanEntriesFiles_errors now n ln o es s) ih)
      (remove_empty_errors o _ _) x hx
  · intro s n es rm hmax hw p2 hnone hrem ih x hx
    have hnone' : (cleanSubdirs now ln o
        (cleanEntriesFiles now n ln o es s).1
        (cleanEntriesFiles now n ln o es s).2).2.2 = none := hnone
    simp only [clean_directory_advanced, hmax, if_false, if_true, hnone'] at hx
    rw [if_neg hrem] at hx
    exact mem_or_trans (cleanEntriesFiles_errors now n ln o es s) ih x hx
  · intro s n es ro rm hmax hro x hx
    exact Or.inl (by simpa [clean_directory_advanced, hmax, hro] using hx)
  · intro s n es ro rm hmax x hx
    exact Or.inl (by simpa [clean_directory_advanced, hmax] using hx)
  · intro s n es rm hmax hw p2 ext herr ih x hx
    have herr' : (cleanSubdirs now ln o
        (cleanEntriesFiles now n ln o es s).1
        (cleanEntriesFiles now n ln o es s).2).2.2 = some ext := herr
    simp only [clean_directory_advanced, hmax, if_false, if_true, herr'] at hx
    exact mem_or_trans (cleanEntriesFiles_errors now n ln o es s) ih x hx
  · intro s n es rm hmax hw p2 hnone hrem ih x hx
    have hnone' : (cleanSubdirs now ln o
        (cleanEntriesFiles now n ln o es s).1
        (cleanEntriesFiles now n ln o es s).2).2.2 = none := hnone
    simp only [clean_directory_advanced, hmax, if_false, if_true, hnone', hrem] at hx
    refine mem_or_trans (mem_or_trans (cleanEntriesFiles_errors now n ln o es s) ih)
      (remove_empty_errors o _ _) x hx
  · intro s n es rm hmax hw p2 hnone hrem ih x hx
    have hnone' : (cleanSubdirs now ln o
        (cleanEntriesFiles now n ln o es s).1
        (cleanEntriesFiles now n ln o es s).2).2.2 = none := hnone
    simp only [clean_directory_advanced, hmax, if_false, if_true, hnone'] at hx
    rw [if_neg hrem] at hx
    exact mem_or_trans (cleanEntriesFiles_errors now n ln o es s) ih x hx
  · intro s n es ro rm hmax hro x hx
    exact Or.inl (by simpa [clean_directory_advanced, hmax, hro] using hx)
  · intro s x hx
    exact Or.inl (by simpa [cleanSubdirs] using hx)
  · intro n rest s rc ext herr ih x hx
    have herr' : (clean_directory_advanced now ln o n s).2.2 = some ext := herr
    simp only [cleanSubdirs, herr'] at hx
    exact ih x hx
  · intro n rest s rc hnone ih1 ih2 x hx
    have hnone' : (clean_directory_advanced now ln o n s).2.2 = none := hnone
    simp only [cleanSubdirs, hnone'] at hx
    rcases ih2 x hx with h | h
    · exact ih1 x h
    · exact Or.inr h
  · intro rest s ih x hx
    simp only [cleanSubdirs] at hx
    exact ih x hx
  · intro ent rest s ih x hx
    simp only [cleanSubdirs] at hx
    exact ih x hx

/-- The per-path loop only records `FileInUse` or `IoError` errors. -/
theorem cleanLocationPaths_errors (now : Nat) (ln : String)
    (o : CleaningOptions) :
    ∀ (paths : List (Option FSNode)) (s : CleaningSummary),
      ∀ x ∈ (cleanLocationPaths now ln o paths s).2.errors,
        x ∈ s.errors ∨ benignErrorB x = true := by
  intro paths s
  induction paths, s using cleanLocationPaths.induct now ln o with
  | case1 s => intro x hx; exact Or.inl (by simpa [cleanLocationPaths] using hx)
  | case2 rest s ih =>
    intro x hx
    simp only [cleanLocationPaths] at hx
    exact ih x hx
  | case3 t rest s rc s2 ih =>
    intro x hx
    simp only [cleanLocationPaths] at hx
    rcases ih x hx with h | h
    · have hs2 : ∀ y ∈ (match (clean_directory_advanced now ln o t s).2.2 with
          | some e => (clean_directory_advanced now ln o t s).2.1.add_error
              (CleaningError.IoError (nodeName t) e)
          | none => (clean_directory_advanced now ln o t s).2.1).errors,
          y ∈ s.errors ∨ benignErrorB y = true := by
        intro y hy
        rcases hmatch : (clean_directory_advanced now ln o t s).2.2 with _ | e
        · rw [hmatch] at hy
          exact clean_directory_advanced_errors now ln o t s y hy
        · rw [hmatch] at hy
          rcases mem_add_error hy with h2 | h2
          · exact clean_directory_advanced_errors now ln o t s y h2
          · exact Or.inr (by rw [h2]; rfl)
      exact hs2 x h
    · exact Or.inr h

/-- The location loop only records `FileInUse` or `IoError` errors. -/
theorem cleanLocations_errors (now : Nat) (o : CleaningOptions) :
    ∀ (locs : List (String × List (Option FSNode))) (s : CleaningSummary),
      ∀ x ∈ (cleanLocations now o locs s).2.errors,
        x ∈ s.errors ∨ benignErrorB x = true := by
  intro locs
  induction locs with
  | nil =>
    intro s x hx
    exact Or.inl (by simpa [cleanLocations] using hx)
  | cons l rest ih =>
    intro s x hx
    obtain ⟨nm, paths⟩ := l
    simp only [cleanLocations, cleanOneLocation] at hx
    split at hx <;>
      (rcases ih _ x hx with h | h
       exacts [cleanLocationPaths_errors now nm o paths s x h, Or.inr h])

/-- No run ever records a `DirectoryNotFound`, `PermissionDenied` or
`InvalidPath` error: the whole error list is `FileInUse`/`IoError`. -/
theorem run_errors_benign (now : Nat) (env : Env) (o : CleaningOptions)
    (r : Env × CleaningSummary)
    (h : clean_temp_files_with_options now env o = .ok r) :
    ∀ x ∈ r.2.errors, benignErrorB x = true := by
  intro x hx
  have hr : r.2 = (cleanLocations now o env.browser_caches
      (cleanLocations now o env.temp_locations CleaningSummary.new).2).2 := by
    simp only [clean_temp_files_with_options, clean_browser_caches] at h
    cases h
    rfl
  rw [hr] at hx
  have h1 := cleanLocations_errors now o env.temp_locations CleaningSummary.new
  have h2 := cleanLocations_errors now o env.browser_caches
    (cleanLocations now o env.temp_locations CleaningSummary.new).2
  rcases mem_or_trans h1 h2 x hx with h3 | h3
  · simp [CleaningSummary.new] at h3
  · exact h3

/-! ## C5 — permission-denied failures are never recorded as PermissionDenied -/

/-- C5, counterexample.  A removal failing with a plain permission denial
(no sharing/lock violation code) is recorded as `FileInUse`, not
`PermissionDenied`: the claim that plain permission failures become
`PermissionDenied` fails on this run. -/
theorem c5_counterexample :
    classify_remove_error "f.tmp" permErr = .FileInUse "f.tmp" ∧
    (runSummary 100 c5env runOpts).errors = [.FileInUse "f.tmp"] ∧
    (runSummary 100 c5env runOpts).skipped_files = 1 := by
  refine ⟨rfl, ?_, ?_⟩ <;>
    (simp [runSummary, clean_temp_files_with_options, clean_temp_files,
      cleanLocations, cleanOneLocation, cleanLocationPaths, clean_browser_caches,
      clean_directory_advanced, cleanSubdirs, cleanEntriesFiles, process_file,
      remove_empty_directories_safe, removeEmptyEntries, should_skip_file_advanced,
      startsWithDot, protected_files, matches_pattern, matchesPatternCore, matchLoop,
      tryPositions, splitStar, eqIgnoreAsciiCaseL, asciiLower, eq_ignore_ascii_case,
      pathExtension, lastDotSplit, is_file_older_than_days, classify_remove_error,
      is_file_in_use_error, is_directory_empty, isDirNode, nodeName, rmdirErrOf,
      insertLocation, CleaningSummary.new, CleaningSummary.add_error,
      CleaningSummary.add_location_data, CleaningOptions.default, metadataErrMsg,
      entryErrMsg, egFile, permErr, runOpts, c5env, ERROR_SHARING_VIOLATION,
      ERROR_LOCK_VIOLATION] <;> decide)

/-- C5, amended: no error recorded by a run is ever the `PermissionDenied`
variant.  The delete-attempt classifier maps every permission-denied kind to
`FileInUse` (the fallback arm of `is_file_in_use_error` shadows the
`PermissionDenied` arm of `process_file`, which is dead code), and every
other recording site produces `IoError`. -/
theorem c5_theorem :
    (∀ (p : String) (e : IoErr),
      isPermissionDeniedErr (classify_remove_error p e) = false) ∧
    (∀ (now : Nat) (env : Env) (o : CleaningOptions) (r : Env × CleaningSummary),
      clean_temp_files_with_options now env o = .ok r →
      ∀ x ∈ r.2.errors, isPermissionDeniedErr x = false) := by
  have hb : ∀ x, benignErrorB x = true → isPermissionDeniedErr x = false := by
    intro x hx
    cases x <;> simp_all [benignErrorB, isPermissionDeniedErr]
  constructor
  · intro p e
    exact hb _ (classify_remove_error_benign p e)
  · intro now env o r h x hx
    exact hb x (run_errors_benign now env o r h x hx)

/-- C5, witness: the run-level conjunct of `c5_theorem` applied to the
concrete permission-denial run. -/
theorem c5_witness :
    isPermissionDeniedErr (CleaningError.FileInUse "f.tmp") = false :=
  c5_theorem.2 100 c5env runOpts (runEnv 100 c5env runOpts, runSummary 100 c5env runOpts)
    (by simp [runEnv, runSummary, clean_temp_files_with_options, clean_browser_caches])
    (CleaningError.FileInUse "f.tmp")
    (by show CleaningError.FileInUse "f.tmp" ∈ (runSummary 100 c5env runOpts).errors
        simp [runSummary, clean_temp_files_with_options, clean_temp_files,
      cleanLocations, cleanOneLocation, cleanLocationPaths, clean_browser_caches,
      clean_directory_advanced, cleanSubdirs, cleanEntriesFiles, process_file,
      remove_empty_directories_safe, removeEmptyEntries, should_skip_file_advanced,
      startsWithDot, protected_files, matches_pattern, matchesPatternCore, matchLoop,
      tryPositions, splitStar, eqIgnoreAsciiCaseL, asciiLower, eq_ignore_ascii_case,
      pathExtension, lastDotSplit, is_file_older_than_days, classify_remove_error,
      is_file_in_use_error, is_directory_empty, isDirNode, nodeName, rmdirErrOf,
      insertLocation, CleaningSummary.new, CleaningSummary.add_error,
      CleaningSummary.add_location_data, CleaningOptions.default, metadataErrMsg,
      entryErrMsg, egFile, permErr, runOpts, c5env,
      ERROR_SHARING_VIOLATION, ERROR_LOCK_VIOLATION] <;> decide)

/-! ## C4 — nonexistent / non-directory locations -/

/-- C4, counterexample.  A location path that exists but is not a directory
is recorded against the location as `IoError` (wrapping the message of line
250), not as a `DirectoryNotFound` error, while the remaining locations are
still processed (the second location deletes its file). -/
theorem c4_counterexample :
    (runSummary 100 c4env runOpts).errors
      = [.IoError "p" "p existiert nicht oder ist kein Verzeichnis"] ∧
    (runSummary 100 c4env runOpts).deleted_files = 1 := by
  constructor <;>
    (simp [runSummary, clean_temp_files_with_options, clean_temp_files,
      cleanLocations, cleanOneLocation, cleanLocationPaths, clean_browser_caches,
      clean_directory_advanced, cleanSubdirs, cleanEntriesFiles, process_file,
      remove_empty_directories_safe, removeEmptyEntries, should_skip_file_advanced,
      startsWithDot, protected_files, matches_pattern, matchesPatternCore, matchLoop,
      tryPositions, splitStar, eqIgnoreAsciiCaseL, asciiLower, eq_ignore_ascii_case,
      pathExtension, lastDotSplit, is_file_older_than_days, classify_remove_error,
      is_file_in_use_error, is_directory_empty, isDirNode, nodeName, rmdirErrOf,
      insertLocation, CleaningSummary.new, CleaningSummary.add_error,
      CleaningSummary.add_location_data, CleaningOptions.default, metadataErrMsg,
      entryErrMsg, egFile, permErr, runOpts, c4env, ERROR_SHARING_VIOLATION,
      ERROR_LOCK_VIOLATION] <;> decide)

/-- C4, amended: the traversal engine does signal a distinct failure for a
path that is not a directory (the line-250 message), but the caller records
every engine failure as `IoError` against the path; the `DirectoryNotFound`
variant is never produced by any run, and the failing location does not
abort the remaining locations (the per-location statistics of the concrete
run attribute 1 error to the bad location and 1 deletion to the next). -/
theorem c4_theorem :
    (∀ (now : Nat) (ln : String) (o : CleaningOptions) (nm : String)
        (sz md : Nat) (me : Bool) (re : Option IoErr) (s : CleaningSummary),
      clean_directory_advanced now ln o (.file nm sz md me re) s
        = (.file nm sz md me re, s,
           some (nm ++ " existiert nicht oder ist kein Verzeichnis"))) ∧
    (∀ (now : Nat) (env : Env) (o : CleaningOptions) (r : Env × CleaningSummary),
      clean_temp_files_with_options now env o = .ok r →
      ∀ x ∈ r.2.errors, isDirectoryNotFoundErr x = false) ∧
    ((runSummary 100 c4env runOpts).cleaned_locations
      = [("L1", { location_name := "L1", deleted_files := 0, total_size := 0,
                  errors := 1, skipped_files := 0 }),
         ("L2", { location_name := "L2", deleted_files := 1, total_size := 10,
                  errors := 0, skipped_files := 0 })]) := by
  have hb : ∀ x, benignErrorB x = true → isDirectoryNotFoundErr x = false := by
    intro x hx
    cases x <;> simp_all [benignErrorB, isDirectoryNotFoundErr]
  refine ⟨?_, ?_, ?_⟩
  · intro now ln o nm sz md me re s
    simp [clean_directory_advanced]
  · intro now env o r h x hx
    exact hb x (run_errors_benign now env o r h x hx)
  · simp [runSummary, clean_temp_files_with_options, clean_temp_files,
      cleanLocations, cleanOneLocation, cleanLocationPaths, clean_browser_caches,
      clean_directory_advanced, cleanSubdirs, cleanEntriesFiles, process_file,
      remove_empty_directories_safe, removeEmptyEntries, should_skip_file_advanced,
      startsWithDot, protected_files, matches_pattern, matchesPatternCore, matchLoop,
      tryPositions, splitStar, eqIgnoreAsciiCaseL, asciiLower, eq_ignore_ascii_case,
      pathExtension, lastDotSplit, is_file_older_than_days, classify_remove_error,
      is_file_in_use_error, is_directory_empty, isDirNode, nodeName, rmdirErrOf,
      insertLocation, CleaningSummary.new, CleaningSummary.add_error,
      CleaningSummary.add_location_data, CleaningOptions.default, metadataErrMsg,
      entryErrMsg, egFile, permErr, runOpts, c4env, ERROR_SHARING_VIOLATION,
      ERROR_LOCK_VIOLATION] <;> decide

/-- C4, witness: the run-level conjunct of `c4_theorem` applied to the
concrete non-directory-location run. -/
theorem c4_witness :
    isDirectoryNotFoundErr
      (CleaningError.IoError "p" "p existiert nicht oder ist kein Verzeichnis") = false :=
  c4_theorem.2.1 100 c4env runOpts
    (runEnv 100 c4env runOpts, runSummary 100 c4env runOpts)
    (by simp [runEnv, runSummary, clean_temp_files_with_options, clean_browser_caches])
    (CleaningError.IoError "p" "p existiert nicht oder ist kein Verzeichnis")
    (by show CleaningError.IoError "p" "p existiert nicht oder ist kein Verzeichnis"
          ∈ (runSummary 100 c4env runOpts).errors
        simp [runSummary, clean_temp_files_with_options, clean_temp_files,
      cleanLocations, cleanOneLocation, cleanLocationPaths, clean_browser_caches,
      clean_directory_advanced, cleanSubdirs, cleanEntriesFiles, process_file,
      remove_empty_directories_safe, removeEmptyEntries, should_skip_file_advanced,
      startsWithDot, protected_files, matches_pattern, matchesPatternCore, matchLoop,
      tryPositions, splitStar, eqIgnoreAsciiCaseL, asciiLower, eq_ignore_ascii_case,
      pathExtension, lastDotSplit, is_file_older_than_days, classify_remove_error,
      is_file_in_use_error, is_directory_empty, isDirNode, nodeName, rmdirErrOf,
      insertLocation, CleaningSummary.new, CleaningSummary.add_error,
      CleaningSummary.add_location_data, CleaningOptions.default, metadataErrMsg,
      entryErrMsg, egFile, permErr, runOpts, c4env,
      ERROR_SHARING_VIOLATION, ERROR_LOCK_VIOLATION] <;> decide)

/-! ## C8 — totality of the orchestrator -/

/-- C8: the top-level entry point is total — for every environment and
options value `clean_temp_files_with_options` returns `Ok` with a summary
(the only `?` in its body is on `clean_browser_caches`, which always returns
`Ok`), and the no-argument form is the default-options invocation. -/
theorem c8_theorem :
    (∀ (now : Nat) (env : Env) (o : CleaningOptions),
      ∃ r, clean_temp_files_with_options now env o = .ok r) ∧
    (∀ (now : Nat) (env : Env) (o : CleaningOptions) (s : CleaningSummary),
      clean_browser_caches now o env.browser_caches s
        = .ok (cleanLocations now o env.browser_caches s)) ∧
    (∀ (now : Nat) (env : Env),
      clean_temp_files now env
        = clean_temp_files_with_options now env CleaningOptions.default) := by
  refine ⟨?_, ?_, ?_⟩
  · intro now env o
    refine ⟨(runEnv now env o, runSummary now env o), ?_⟩
    simp [runEnv, runSummary, clean_temp_files_with_options, clean_browser_caches]
  · intro now env o s
    rfl
  · intro now env
    rfl

/-! ## C7 — dry-run semantics -/

/-- C7, counterexample.  Over the chain of empty directories `R/A/B` (with
the empty-directory pass enabled), the real run removes `B` and then `A`
(2 removals) while the dry run only counts `B` (1): the
empty-directories-removed counter of a dry run is NOT updated exactly as if
deletion had occurred.  The two option records differ only in `dry_run`. -/
theorem c7_counterexample :
    (clean_directory_advanced 100 "X" c7dry c7R CleaningSummary.new).2.1.empty_dirs_removed = 1 ∧
    (clean_directory_advanced 100 "X" c7real c7R CleaningSummary.new).2.1.empty_dirs_removed = 2 ∧
    c7dry = { c7real with dry_run := true } := by
  refine ⟨?_, ?_, rfl⟩ <;>
    (simp [clean_directory_advanced, cleanSubdirs, cleanEntriesFiles,
      remove_empty_directories_safe, removeEmptyEntries, is_directory_empty,
      isDirNode, nodeName, rmdirErrOf, CleaningSummary.new, CleaningOptions.default,
      c7R, c7dry, c7real] <;> decide)

/-- C7, amended: a dry run performs zero filesystem mutations — the engine
and the whole orchestrator return the tree unchanged — so a second dry run
over the returned state is literally the same run; and per file, the
deleted-file and reclaimed-byte counters advance in dry-run mode exactly as
in a real run whose removal succeeds.  Only the empty-directories-removed
counter may differ from a real run (see the counterexample). -/
theorem c7_theorem :
    (∀ (now : Nat) (env : Env) (o : CleaningOptions), o.dry_run = true →
      ∃ s, clean_temp_files_with_options now env o = .ok (env, s)) ∧
    (∀ (now : Nat) (ln : String) (o : CleaningOptions) (t : FSNode)
        (s : CleaningSummary), o.dry_run = true →
      (clean_directory_advanced now ln o t s).1 = t) ∧
    (∀ (now : Nat) (env : Env) (o : CleaningOptions) (env' : Env)
        (s' : CleaningSummary), o.dry_run = true →
      clean_temp_files_with_options now env o = .ok (env', s') →
      clean_temp_files_with_options now env' o
        = clean_temp_files_with_options now env o) ∧
    (∀ (now : Nat) (nm : String) (sz md : Nat) (ln : String)
        (o : CleaningOptions) (s : CleaningSummary),
      (process_file now nm sz md false none ln { o with dry_run := true } s).2.deleted_files
        = (process_file now nm sz md false none ln { o with dry_run := false } s).2.deleted_files ∧
      (process_file now nm sz md false none ln { o with dry_run := true } s).2.total_size
        = (process_file now nm sz md false none ln { o with dry_run := false } s).2.total_size) := by
  refine ⟨?_, ?_, ?_, ?_⟩
  · intro now env o ho
    exact clean_temp_files_dry now env o ho
  · intro now ln o t s ho
    exact clean_directory_advanced_dry now ln o ho t s
  · intro now env o env' s' ho h
    obtain ⟨s2, h2⟩ := clean_temp_files_dry now env o ho
    rw [h] at h2
    simp only [Except.ok.injEq, Prod.mk.injEq] at h2
    rw [h2.1]
  · intro now nm sz md ln o s
    have e1 : ∀ b, should_skip_file_advanced nm ln { o with dry_run := b }
        = should_skip_file_advanced nm ln o := fun _ => rfl
    have e2 : ∀ b, ({ o with dry_run := b } : CleaningOptions).target_extensions
        = o.target_extensions := fun _ => rfl
    have e3 : ∀ b, ({ o with dry_run := b } : CleaningOptions).max_file_size
        = o.max_file_size := fun _ => rfl
    have e4 : ∀ b, ({ o with dry_run := b } : CleaningOptions).min_file_size
        = o.min_file_size := fun _ => rfl
    have e5 : ∀ b, ({ o with dry_run := b } : CleaningOptions).min_file_age_days
        = o.min_file_age_days := fun _ => rfl
    have e6 : ∀ b, ({ o with dry_run := b } : CleaningOptions).dry_run = b :=
      fun _ => rfl
    constructor <;>
      (unfold process_file
       simp only [e1, e2, e3, e4, e5, e6]
       split_ifs <;> simp)

/-- C7, witness: the no-mutation conjunct of `c7_theorem` applied to the
concrete dry run over `c7R`. -/
theorem c7_witness :
    (clean_directory_advanced 100 "X" c7dry c7R CleaningSummary.new).1 = c7R :=
  c7_theorem.2.1 100 "X" c7dry c7R CleaningSummary.new rfl

/-! ## C1 — failure isolation and abort propagation -/

/-- C1, counterexample.  In `c1R`, the unreadable listing of `A1` aborts not
only `A1` but — through the `?` on line 300 — the whole location traversal:
the sibling `A2` of `A1` and the sibling `B` of the ancestor `A` are left
unprocessed (no file is deleted, and the tree is returned untouched), while
the engine reports the `A1` read failure upward.  The claim that such an
abort never cancels sibling subdirectories of an ancestor directory fails
here. -/
theorem c1_counterexample :
    (clean_directory_advanced 100 "X" runOpts c1R CleaningSummary.new).2.1.deleted_files = 0 ∧
    (clean_directory_advanced 100 "X" runOpts c1R CleaningSummary.new).2.2
      = some "Verzeichnis A1 konnte nicht gelesen werden" ∧
    (clean_directory_advanced 100 "X" runOpts c1R CleaningSummary.new).1 = c1R := by
  refine ⟨?_, ?_, ?_⟩ <;>
    (simp [clean_directory_advanced, cleanSubdirs, cleanEntriesFiles, process_file,
      remove_empty_directories_safe, removeEmptyEntries, should_skip_file_advanced,
      startsWithDot, protected_files, matches_pattern, matchesPatternCore, matchLoop,
      tryPositions, splitStar, eqIgnoreAsciiCaseL, asciiLower, eq_ignore_ascii_case,
      pathExtension, lastDotSplit, is_file_older_than_days, is_directory_empty,
      isDirNode, nodeName, rmdirErrOf, CleaningSummary.new, CleaningSummary.add_error,
      CleaningOptions.default, metadataErrMsg, entryErrMsg, egFile, runOpts,
      c1R] <;> decide)

/-- C1, amended: per-entry failures inside one listing are isolated
(processing always continues with the next sibling entry of the same
directory), and an unreadable directory listing signals an error to the
caller; but that abort propagates through every ancestor up to the location
root, cancelling their remaining subdirectory work, and only then is the
error attributed to the owning location as an `IoError` while the run
continues with the next location (in the concrete run: nothing of location
L1 is deleted, the A1 message is recorded, and L2 still deletes its file). -/
theorem c1_theorem :
    ((runSummary 100 c1env runOpts).deleted_files = 1 ∧
     (runSummary 100 c1env runOpts).errors
       = [.IoError "R" "Verzeichnis A1 konnte nicht gelesen werden"]) ∧
    (∀ (now : Nat) (ln : String) (o : CleaningOptions) (nm : String)
        (es : List (Option FSNode)) (rm : Option String) (s : CleaningSummary),
      o.max_files = 0 →
      clean_directory_advanced now ln o (.dir nm es false rm) s
        = (.dir nm es false rm, s,
           some ("Verzeichnis " ++ nm ++ " konnte nicht gelesen werden"))) ∧
    (∀ (now : Nat) (dn ln : String) (o : CleaningOptions) (ent : Option FSNode)
        (rest : List (Option FSNode)) (s : CleaningSummary),
      o.max_files = 0 →
      ∃ s', (cleanEntriesFiles now dn ln o (ent :: rest) s).2
        = (cleanEntriesFiles now dn ln o rest s').2) := by
  refine ⟨⟨?_, ?_⟩, ?_, ?_⟩
  · simp [runSummary, clean_temp_files_with_options, clean_temp_files,
      cleanLocations, cleanOneLocation, cleanLocationPaths, clean_browser_caches,
      clean_directory_advanced, cleanSubdirs, cleanEntriesFiles, process_file,
      remove_empty_directories_safe, removeEmptyEntries, should_skip_file_advanced,
      startsWithDot, protected_files, matches_pattern, matchesPatternCore, matchLoop,
      tryPositions, splitStar, eqIgnoreAsciiCaseL, asciiLower, eq_ignore_ascii_case,
      pathExtension, lastDotSplit, is_file_older_than_days, classify_remove_error,
      is_file_in_use_error, is_directory_empty, isDirNode, nodeName, rmdirErrOf,
      insertLocation, CleaningSummary.new, CleaningSummary.add_error,
      CleaningSummary.add_location_data, CleaningOptions.default, metadataErrMsg,
      entryErrMsg, egFile, runOpts, c1R, c1env] <;> decide
  · simp [runSummary, clean_temp_files_with_options, clean_temp_files,
      cleanLocations, cleanOneLocation, cleanLocationPaths, clean_browser_caches,
      clean_directory_advanced, cleanSubdirs, cleanEntriesFiles, process_file,
      remove_empty_directories_safe, removeEmptyEntries, should_skip_file_advanced,
      startsWithDot, protected_files, matches_pattern, matchesPatternCore, matchLoop,
      tryPositions, splitStar, eqIgnoreAsciiCaseL, asciiLower, eq_ignore_ascii_case,
      pathExtension, lastDotSplit, is_file_older_than_days, classify_remove_error,
      is_file_in_use_error, is_directory_empty, isDirNode, nodeName, rmdirErrOf,
      insertLocation, CleaningSummary.new, CleaningSummary.add_error,
      CleaningSummary.add_location_data, CleaningOptions.default, metadataErrMsg,
      entryErrMsg, egFile, runOpts, c1R, c1env] <;> decide
  · intro now ln o nm es rm s hmax0
    have hmax : ¬(0 < o.max_files ∧ o.max_files ≤ s.deleted_files) := by
      rw [hmax0]; simp
    simp [clean_directory_advanced, hmax]
  · intro now dn ln o ent rest s hmax0
    have hmax : ¬(0 < o.max_files ∧ o.max_files ≤ s.deleted_files) := by
      rw [hmax0]; simp
    match ent with
    | none =>
      exact ⟨s.add_error (.IoError dn entryErrMsg), by simp [cleanEntriesFiles]⟩
    | some (.file nm sz md me re) =>
      exact ⟨(process_file now nm sz md me re ln o s).2,
        by simp [cleanEntriesFiles, hmax]⟩
    | some (.dir nm es1 ro rm) =>
      exact ⟨s, by simp [cleanEntriesFiles, hmax]⟩
    | some (.symlinkDir nm es1 ro rm) =>
      by_cases hrec : o.recursive = true
      · exact ⟨{ s with skipped_files := s.skipped_files + 1 },
          by simp [cleanEntriesFiles, hmax, hrec]⟩
      · exact ⟨s, by simp [cleanEntriesFiles, hmax, hrec]⟩

/-- C1, witness: the read-failure conjunct of `c1_theorem` at a concrete
unreadable directory. -/
theorem c1_witness :
    clean_directory_advanced 0 "X" runOpts (.dir "D" [] false none) CleaningSummary.new
      = (.dir "D" [] false none, CleaningSummary.new,
         some ("Verzeichnis " ++ "D" ++ " konnte nicht gelesen werden")) :=
  c1_theorem.2.1 0 "X" runOpts "D" [] none CleaningSummary.new rfl

/-! ## C9 — symbolic links and the empty-directory pass -/

/-- C9: evaluation at the failing input.  The entry loop skips the symlinked
directory and counts it as skipped (skipped_files = 1, nothing deleted), but
`remove_empty_directories_safe` recurses into every entry with
`is_dir() = true` without a symlink check, so the empty subdirectory INSIDE
the symlink target is traversed and removed (empty_dirs_removed = 1) — the
symlinked directory is traversed after all, and on a symlink cycle this
recursion has no termination guard. -/
theorem c9_theorem :
    (clean_directory_advanced 100 "X" c9opts c9R CleaningSummary.new).2.1.empty_dirs_removed = 1 ∧
    (clean_directory_advanced 100 "X" c9opts c9R CleaningSummary.new).2.1.skipped_files = 1 ∧
    (clean_directory_advanced 100 "X" c9opts c9R CleaningSummary.new).2.1.deleted_files = 0 := by
  refine ⟨?_, ?_, ?_⟩ <;>
    (simp [clean_directory_advanced, cleanSubdirs, cleanEntriesFiles, process_file,
      remove_empty_directories_safe, removeEmptyEntries, should_skip_file_advanced,
      startsWithDot, protected_files, matches_pattern, matchesPatternCore, matchLoop,
      tryPositions, splitStar, eqIgnoreAsciiCaseL, asciiLower, eq_ignore_ascii_case,
      pathExtension, lastDotSplit, is_file_older_than_days, is_directory_empty,
      isDirNode, nodeName, rmdirErrOf, CleaningSummary.new, CleaningSummary.add_error,
      CleaningOptions.default, metadataErrMsg, entryErrMsg, egFile, c9opts,
      c9R] <;> decide)

/-! ## C10 — the location root is never deleted -/

/-- The empty-directory pass returns the directory it is invoked on: only
entries (strict descendants) are ever removed. -/
theorem remove_empty_dir_shape (o : CleaningOptions) (nm : String)
    (es : List (Option FSNode)) (ro : Bool) (rm : Option String)
    (s : CleaningSummary) :
    ∃ es2 s2 e2, remove_empty_directories_safe o (.dir nm es ro rm) s
      = (.dir nm es2 ro rm, s2, e2) := by
  cases ro
  · exact ⟨es, s, none, by simp [remove_empty_directories_safe]⟩
  · exact ⟨(removeEmptyEntries o es s).1, (removeEmptyEntries o es s).2.1,
      (removeEmptyEntries o es s).2.2, by simp [remove_empty_directories_safe]⟩

/-- C10: for every options value and every state, cleaning a directory root
returns that same root — a `dir` node with the same name, readability and
removal outcome; only its entries can change.  In particular the root is
never deleted, even when the run leaves it completely empty. -/
theorem c10_theorem :
    ∀ (now : Nat) (ln : String) (o : CleaningOptions) (nm : String)
      (es : List (Option FSNode)) (ro : Bool) (rm : Option String)
      (s : CleaningSummary),
      ∃ es' s2 e2, clean_directory_advanced now ln o (.dir nm es ro rm) s
        = (.dir nm es' ro rm, s2, e2) := by
  intro now ln o nm es ro rm s
  by_cases hmax : 0 < o.max_files ∧ o.max_files ≤ s.deleted_files
  · exact ⟨es, s, none, by simp [clean_directory_advanced, hmax]⟩
  · cases ro
    · exact ⟨es, s, some ("Verzeichnis " ++ nm ++ " konnte nicht gelesen werden"),
        by simp [clean_directory_advanced, hmax]⟩
    · rcases herr : (cleanSubdirs now ln o
          (cleanEntriesFiles now nm ln o es s).1
          (cleanEntriesFiles now nm ln o es s).2).2.2 with _ | e
      · by_cases hrem : o.remove_empty_dirs = true
        · obtain ⟨es2, s2, e2, hs⟩ := remove_empty_dir_shape o nm
            (cleanSubdirs now ln o
              (cleanEntriesFiles now nm ln o es s).1
              (cleanEntriesFiles now nm ln o es s).2).1 true rm
            (cleanSubdirs now ln o
              (cleanEntriesFiles now nm ln o es s).1
              (cleanEntriesFiles now nm ln o es s).2).2.1
          refine ⟨es2, s2, e2, ?_⟩
          simp only [clean_directory_advanced, hmax, if_false, if_true, herr, hrem]
          exact hs
        · refine ⟨(cleanSubdirs now ln o
              (cleanEntriesFiles now nm ln o es s).1
              (cleanEntriesFiles now nm ln o es s).2).1,
            (cleanSubdirs now ln o
              (cleanEntriesFiles now nm ln o es s).1
              (cleanEntriesFiles now nm ln o es s).2).2.1, none, ?_⟩
          simp only [clean_directory_advanced, hmax, if_false, if_true, herr]
          rw [if_neg hrem]
      · refine ⟨(cleanSubdirs now ln o
            (cleanEntriesFiles now nm ln o es s).1
            (cleanEntriesFiles now nm ln o es s).2).1,
          (cleanSubdirs now ln o
            (cleanEntriesFiles now nm ln o es s).1
            (cleanEntriesFiles now nm ln o es s).2).2.1, some e, ?_⟩
        simp only [clean_directory_advanced, hmax, if_false, if_true, herr]

end Zentify
